import Mathlib

/-!
Verification of the ultron-ai execution core against its specification.

The definitions below are a shallow embedding of the Python sources:
`ultron/autonomous/agent.py` (sandbox path resolver, tool dispatcher, agent
loop), `ultron/reviewer.py` (JSON recovery parser and single-shot review
response processing) and `ultron/caching.py` (result cache).  Filesystem and
model-backend effects are passed in explicitly as function-valued parameters;
Python exceptions escaping a function are modelled as the `.error` branch of
`Except`.
-/

namespace Ultron

/-! ## Python string primitives -/

/-- ASCII whitespace as recognised by Python's `str.strip` and the regex
class `\s` (the Unicode extras never occur in the inputs considered here). -/
def pyIsSpace (c : Char) : Bool :=
  c = ' ' || c = '\t' || c = '\n' || c = '\r' || c = '\x0b' || c = '\x0c'

/-- Python `str.strip()`: remove leading and trailing whitespace. -/
def pyStrip (s : String) : String :=
  ⟨(s.data.dropWhile pyIsSpace).reverse.dropWhile pyIsSpace |>.reverse⟩

/-- Number of occurrences of a character, Python `str.count(c)`. -/
def countChar (s : String) (c : Char) : Nat :=
  s.data.countP (fun d => d = c)

/-- Python `c in s` for a single character. -/
def hasChar (s : String) (c : Char) : Bool :=
  s.data.contains c

/-- Python `str.rfind(c)` for a single character: the largest index holding
`c`, or `-1` when absent. -/
def pyRfind (s : String) (c : Char) : Int :=
  match (s.data.reverse.findIdx? (fun d => d = c)) with
  | some j => (s.length : Int) - 1 - (j : Int)
  | none => -1

/-- Python slice `s[:n]` (indices past the end are clamped). -/
def pyTake (s : String) (n : Nat) : String := ⟨s.data.take n⟩

/-- Python slice `s[n:]`. -/
def pyDrop (s : String) (n : Nat) : String := ⟨s.data.drop n⟩

/-- Python slice `s[a:b]`. -/
def pySlice (s : String) (a b : Nat) : String := ⟨(s.data.take b).drop a⟩

/-- `c * n` for a character, Python `'x' * n`. -/
def repeatChar (c : Char) (n : Nat) : String := ⟨List.replicate n c⟩

/-- Python `str.startswith` (structural form of `String.startsWith`). -/
def strStartsWith (s p : String) : Bool := p.data.isPrefixOf s.data

/-- Python `str.endswith` (structural form of `String.endsWith`). -/
def strEndsWith (s p : String) : Bool := p.data.reverse.isPrefixOf s.data.reverse

def splitSlashAux : List Char → List Char → List String
  | [], acc => [⟨acc.reverse⟩]
  | '/' :: rest, acc => ⟨acc.reverse⟩ :: splitSlashAux rest []
  | c :: rest, acc => splitSlashAux rest (c :: acc)

/-- `s.split('/')` — the components of `s` between `/` separators,
empties included (structural form of `String.splitOn "/"`). -/
def splitSlash (s : String) : List String := splitSlashAux s.data []

def insertSorted (x : String) : List String → List String
  | [] => [x]
  | y :: ys => if x ≤ y then x :: y :: ys else y :: insertSorted x ys

/-- Python `sorted` on strings (stable insertion sort, lexicographic by
code point like Python's string comparison). -/
def sortStrings : List String → List String
  | [] => []
  | x :: xs => insertSorted x (sortStrings xs)

/-! ## Sandbox path resolver (`AutonomousAgent._resolve_and_validate_path`) -/

/-- Model of Python `pathlib.Path(s).parts` on POSIX: the anchor `"/"` when
the path is absolute, followed by the non-empty, non-`"."` components. -/
def pathParts (s : String) : List String :=
  let comps := (splitSlash s).filter (fun p => p != "" && p != ".")
  if strStartsWith s "/" then "/" :: comps else comps

/-- Model of Python `Path(s).is_absolute()` on POSIX. -/
def isAbsolutePath (s : String) : Bool := strStartsWith s "/"

/-- Model of `self.codebase_path / file_path` for a relative `file_path`. -/
def joinPath (root fp : String) : String :=
  if strEndsWith root "/" then root ++ fp else root ++ "/" ++ fp

/-- Model of `Path.parent` for an absolute POSIX path string. -/
def parentPath (p : String) : String :=
  let comps := (splitSlash p).filter (fun c => c != "")
  let up := comps.dropLast
  if up.isEmpty then "/" else "/" ++ String.intercalate "/" up

/-- Model of `Path.relative_to(root)`: the path with the root stripped,
`"."` when the path equals the root, and `none` for the `ValueError` Python
raises on a path not under the root.  (The source reaches this call on every
path that passed the string-prefix root check, which also admits paths under
a sibling directory whose name merely extends the root's string — there the
call raises.) -/
def relativeTo (p root : String) : Option String :=
  if p = root then some "."
  else if strStartsWith p (root ++ "/") then some (pyDrop p (root.length + 1))
  else none

/-- `str(e)` for the `ValueError` raised by `Path.relative_to` on a path not
under the root (CPython 3.12 wording; older versions append an "OR one path
is relative and the other is absolute." clause — nothing proved below
depends on this text). -/
def relativeToErrMsg (p root : String) : String :=
  "'" ++ p ++ "' is not in the subpath of '" ++ root ++ "'"

/-- The filesystem as observed by the path resolver: `resolve` canonicalizes
an absolute path (resolving symlinks, `.` and `..`), and `isFile` / `isDir` /
`listDir` model `Path.is_file`, `Path.is_dir` and the entry names produced by
`Path.iterdir`. -/
structure PyFS where
  resolve : String → String
  isFile : String → Bool
  isDir : String → Bool
  listDir : String → List String

/-- `", ".join(sorted(contents)) if contents else "It is empty."` -/
def contentsStr (contents : List String) : String :=
  if contents.isEmpty then "It is empty."
  else String.intercalate ", " (sortStrings contents)

def travErrorMsg : String :=
  "Error: Path traversal or absolute paths are not allowed. Use relative paths from the project root."

def outsideRootErrorMsg : String :=
  "Error: Path traversal attempt detected. Access denied."

def dirErrorMsg (file_path : String) (contents : List String) : String :=
  "Error: Path '" ++ file_path ++ "' is a directory, not a file. Its contents are: [" ++
    contentsStr contents ++ "]."

def notFoundErrorMsg (file_path relative_parent_str : String) (contents : List String) : String :=
  "Error: File not found at path '" ++ file_path ++ "'. The parent directory '" ++
    relative_parent_str ++ "' exists and contains: [" ++ contentsStr contents ++ "]."

def noParentErrorMsg (file_path relative_parent : String) : String :=
  "Error: Cannot access path '" ++ file_path ++ "' because its directory '" ++
    relative_parent ++ "' does not exist."

/-- `f"Error: File not found at path '{file_path}'. The parent directory
exists, but its contents could not be read. Reason: {e}"` — the `except`
branch of the parent-exists case (agent.py lines 125-126). -/
def notFoundUnreadableParentMsg (file_path reason : String) : String :=
  "Error: File not found at path '" ++ file_path ++
    "'. The parent directory exists, but its contents could not be read. Reason: " ++ reason

/-- Outcome of `_resolve_and_validate_path`: a normal return — the resolved
path for `(absolute_path, None)` or the error observation for
`(None, message)` — or an exception escaping the function uncaught. -/
inductive ResolveResult where
  | ok (path : String)
  | err (msg : String)
  | raised (msg : String)
deriving DecidableEq

/-- Shallow embedding of `AutonomousAgent._resolve_and_validate_path`
(`src/ultron/autonomous/agent.py`, lines 94-129).  `root` is the already
canonical `self.codebase_path`; `.ok` carries the resolved absolute path and
`.err` the error string returned to the model.  In the parent-exists branch
the `try` block reads the parent's entries and then calls
`parent_dir.relative_to(self.codebase_path)` (line 122), whose `ValueError`
on an out-of-root parent is caught at lines 125-126 into the
could-not-be-read message; in the parent-missing branch the same call
(line 128) sits outside any `try`, so there the `ValueError` escapes
(`.raised`).  `iterdir` is modeled total (`listDir`), so it raises
nowhere here. -/
def resolve_and_validate_path (fs : PyFS) (root file_path : String) : ResolveResult :=
  if (pathParts file_path).contains ".." || isAbsolutePath file_path then
    .err travErrorMsg
  else
    let absolute_path := fs.resolve (joinPath root file_path)
    if !(strStartsWith absolute_path root) then
      .err outsideRootErrorMsg
    else if fs.isFile absolute_path then
      .ok absolute_path
    else if fs.isDir absolute_path then
      .err (dirErrorMsg file_path (fs.listDir absolute_path))
    else
      let parent_dir := parentPath absolute_path
      if fs.isDir parent_dir then
        match relativeTo parent_dir root with
        | some relative_parent =>
          let relative_parent_str :=
            if relative_parent != "." then relative_parent else "the root directory"
          .err (notFoundErrorMsg file_path relative_parent_str (fs.listDir parent_dir))
        | none =>
          .err (notFoundUnreadableParentMsg file_path (relativeToErrMsg parent_dir root))
      else
        match relativeTo parent_dir root with
        | some relative_parent => .err (noParentErrorMsg file_path relative_parent)
        | none => .raised (relativeToErrMsg parent_dir root)

/-- Spec-side definition, following the specification's words: the canonical
result "is located within the canonical root directory" when it is the root
itself or lies inside the root directory. -/
def located_within_root (root p : String) : Bool :=
  p == root || strStartsWith p (root ++ "/")

/-! ## Tool dispatcher and agent loop (`AutonomousAgent.run`) -/

/-- A `function_call` part produced by the model: tool name and keyword
arguments (argument values are opaque here; only the keyword names matter to
Python's call binding). -/
structure ToolCall where
  name : String
  args : List (String × String)
deriving DecidableEq

/-- One part of a model reply or history entry (`types.Part`). -/
structure MsgPart where
  text : Option String
  function_call : Option ToolCall
  function_response : Option (String × String)
deriving DecidableEq

/-- One history entry (`types.Content`). -/
structure Content where
  role : String
  parts : List MsgPart
deriving DecidableEq

structure Candidate where
  content : Content
deriving DecidableEq

/-- A reply of `client.models.generate_content`. -/
structure ModelResponse where
  candidates : List Candidate
deriving DecidableEq

def textPart (t : String) : MsgPart := ⟨some t, none, none⟩

def funcCallPart (tc : ToolCall) : MsgPart := ⟨none, some tc, none⟩

/-- `types.Part.from_function_response(name=..., response={"result": ...})` -/
def funcResponsePart (name result : String) : MsgPart := ⟨none, none, some (name, result)⟩

/-- The parameter names of each registered tool handler: the keys of
`self.tool_handlers` (agent.py lines 81-86) paired with the Python
signatures of `read_file_content`, `search_pattern`, `list_functions` and
`find_taint_sources_and_sinks`; `none` for an unregistered name. -/
def tool_param_names (name : String) : Option (List String) :=
  if name = "read_file_content" then some ["file_path"]
  else if name = "search_pattern" then some ["file_path", "regex_pattern"]
  else if name = "list_functions" then some ["file_path"]
  else if name = "find_taint_sources_and_sinks" then some ["file_path", "sources", "sinks"]
  else none

/-- Python keyword binding `tool_func(**fn_args)` succeeds exactly when the
keyword set equals the parameter set: every parameter of these handlers is
required, and an unexpected keyword is rejected. -/
def kwargs_bind_ok (params keys : List String) : Bool :=
  params.all (fun p => keys.contains p) && keys.all (fun k => params.contains k)

/-- The `TypeError` raised by `tool_func(**fn_args)` on a binding failure
(missing required keyword or unexpected keyword). -/
def typeErrorMsg (fn_name : String) : String :=
  "TypeError: " ++ fn_name ++ "() received missing or unexpected keyword arguments"

/-- Shallow embedding of the dispatch fragment of `AutonomousAgent.run`
(agent.py lines 347-351): look the tool name up in `tool_handlers`; an
unknown name yields the "not found" observation, a known name is called with
the model-supplied keyword arguments.  `run_tool` abstracts the handler
bodies; the uncaught `TypeError` of a failed binding is the `.error` case. -/
def dispatch_tool (run_tool : String → List (String × String) → String)
    (fn_name : String) (fn_args : List (String × String)) : Except String String :=
  match tool_param_names fn_name with
  | some params =>
      if kwargs_bind_ok params (fn_args.map Prod.fst) then
        .ok (run_tool fn_name fn_args)
      else
        .error (typeErrorMsg fn_name)
  | none => .ok ("Tool " ++ fn_name ++ " not found.")

/-- `True` exactly when `dispatch_tool` does not raise for this call
(registered tool with binding keywords, or unregistered name). -/
def dispatch_ok (fn : ToolCall) : Bool :=
  match tool_param_names fn.name with
  | some params => kwargs_bind_ok params (fn.args.map Prod.fst)
  | none => true

/-- `[p.text.strip() for p in parts if hasattr(p, 'text') and p.text and p.text.strip()]` -/
def textParts (parts : List MsgPart) : List String :=
  parts.filterMap (fun p =>
    match p.text with
    | some t => if t != "" && pyStrip t != "" then some (pyStrip t) else none
    | none => none)

def maxTurnsSentinel : String :=
  "Agent reached maximum turns without providing a final report."

def noTextReportMsg : String :=
  "Agent finished without a textual report."

/-- The exception raised by `response.candidates[0]` on an empty list. -/
def indexErrorMsg : String := "IndexError: list index out of range"

/-- Shallow embedding of the `for turn in range(max_turns)` loop of
`AutonomousAgent.run` (agent.py lines 265-370), by remaining turns.  The
result pairs the value of the loop (`.error` = a Python exception escaping
it) with the number of loop iterations performed.  `model` abstracts
`client.models.generate_content` as a function of the accumulated
`chat_history`; console printing is dropped. -/
def agent_loop (model : List Content → ModelResponse)
    (run_tool : String → List (String × String) → String) :
    Nat → List Content → Except String String × Nat
  | 0, _ => (.ok maxTurnsSentinel, 0)
  | fuel + 1, chat_history =>
    let response := model chat_history
    match response.candidates.head? with
    | none => (.error indexErrorMsg, 1)
    | some candidate =>
      let parts := candidate.content.parts
      let all_text_parts := textParts parts
      match parts.findSome? (fun p => p.function_call) with
      | some fn =>
        match dispatch_tool run_tool fn.name fn.args with
        | .ok result =>
          let hist' := chat_history ++
            [candidate.content, ⟨"tool", [funcResponsePart fn.name result]⟩]
          let (r, n) := agent_loop model run_tool fuel hist'
          (r, n + 1)
        | .error e => (.error e, 1)
      | none =>
        let final_report :=
          if all_text_parts.length > 1 then all_text_parts.getLastD ""
          else match all_text_parts.head? with
            | some t => t
            | none => noTextReportMsg
        (.ok final_report, 1)

/-- `AutonomousAgent.run(max_turns)`: seed the history with the initial
mission prompt (`_create_initial_prompt`, whose wording is out of scope and
abstracted as `initial_prompt`), then loop. -/
def agent_run (model : List Content → ModelResponse)
    (run_tool : String → List (String × String) → String)
    (initial_prompt : String) (max_turns : Nat) : Except String String × Nat :=
  agent_loop model run_tool max_turns [⟨"user", [textPart initial_prompt]⟩]

/-- The model reply contains a tool call whose dispatch does not raise: a
first candidate exists and its first `function_call` part binds correctly
(or names an unregistered tool). -/
def reply_dispatchable_tool_call (r : ModelResponse) : Prop :=
  ∃ candidate, r.candidates.head? = some candidate ∧
    ∃ fn, candidate.content.parts.findSome? (fun p => p.function_call) = some fn ∧
      dispatch_ok fn = true

/-! ## JSON (model of Python `json.loads`) -/

/-- Parsed JSON values; number literals keep their lexeme (their numeric
value is never needed here). -/
inductive Json where
  | null
  | bool (b : Bool)
  | num (lexeme : String)
  | str (s : String)
  | arr (xs : List Json)
  | obj (kvs : List (String × Json))

/-- The error kinds raised by CPython's `json` scanner that can occur on the
inputs considered here. -/
inductive JsonErrKind where
  | expectingValue
  | expectingPropertyName
  | expectingColonDelimiter
  | expectingCommaDelimiter
  | unterminatedString
  | invalidControlCharacter
  | invalidEscape
  | extraData
deriving DecidableEq

/-- A `json.JSONDecodeError`: kind and character position. -/
structure JsonErr where
  kind : JsonErrKind
  pos : Nat
deriving DecidableEq

def jsonErrKindMsg : JsonErrKind → String
  | .expectingValue => "Expecting value"
  | .expectingPropertyName => "Expecting property name enclosed in double quotes"
  | .expectingColonDelimiter => "Expecting ':' delimiter"
  | .expectingCommaDelimiter => "Expecting ',' delimiter"
  | .unterminatedString => "Unterminated string starting at"
  | .invalidControlCharacter => "Invalid control character at"
  | .invalidEscape => "Invalid \\escape"
  | .extraData => "Extra data"

/-- `lineno = doc.count('\n', 0, pos) + 1` -/
def jsonLineNo (doc : String) (pos : Nat) : Nat :=
  1 + (doc.data.take pos).countP (fun c => c = '\n')

/-- `colno = pos - doc.rfind('\n', 0, pos)` -/
def jsonColNo (doc : String) (pos : Nat) : Nat :=
  match (doc.data.take pos).reverse.findIdx? (fun c => c = '\n') with
  | some j => j + 1
  | none => pos + 1

/-- `str(e)` for a `json.JSONDecodeError` raised while parsing `doc`. -/
def jsonErrString (doc : String) (e : JsonErr) : String :=
  jsonErrKindMsg e.kind ++ ": line " ++ toString (jsonLineNo doc e.pos) ++
    " column " ++ toString (jsonColNo doc e.pos) ++ " (char " ++ toString e.pos ++ ")"

/-- JSON insignificant whitespace (`[ \t\n\r]`). -/
def jsonIsWs (c : Char) : Bool :=
  c = ' ' || c = '\t' || c = '\n' || c = '\r'

def jsonSkipWs (cs : List Char) (i : Nat) : Nat :=
  i + ((cs.drop i).takeWhile jsonIsWs).length

/-- The single-character escapes of JSON strings. -/
def jsonEscChar : Char → Option Char
  | '"' => some '"'
  | '\\' => some '\\'
  | '/' => some '/'
  | 'b' => some '\x08'
  | 'f' => some '\x0c'
  | 'n' => some '\n'
  | 'r' => some '\r'
  | 't' => some '\t'
  | _ => none

def hexDigitVal (c : Char) : Option Nat :=
  if '0' ≤ c ∧ c ≤ '9' then some (c.toNat - '0'.toNat)
  else if 'a' ≤ c ∧ c ≤ 'f' then some (c.toNat - 'a'.toNat + 10)
  else if 'A' ≤ c ∧ c ≤ 'F' then some (c.toNat - 'A'.toNat + 10)
  else none

/-- Scan a JSON string literal whose opening quote sits at `start`; `i` is
the current position (initially `start + 1`).  Returns the decoded content
and the position after the closing quote. -/
def jsonScanString (cs : List Char) (start : Nat) :
    Nat → List Char → Nat → Except JsonErr (String × Nat)
  | _, _, 0 => .error ⟨.unterminatedString, start⟩
  | i, acc, fuel + 1 =>
    match cs[i]? with
    | none => .error ⟨.unterminatedString, start⟩
    | some c =>
      if c = '"' then .ok (⟨acc.reverse⟩, i + 1)
      else if c = '\\' then
        match cs[i + 1]? with
        | none => .error ⟨.unterminatedString, start⟩
        | some e =>
          if e = 'u' then
            match cs[i + 2]?, cs[i + 3]?, cs[i + 4]?, cs[i + 5]? with
            | some h1, some h2, some h3, some h4 =>
              match hexDigitVal h1, hexDigitVal h2, hexDigitVal h3, hexDigitVal h4 with
              | some a, some b, some c', some d =>
                jsonScanString cs start (i + 6)
                  (Char.ofNat (((a * 16 + b) * 16 + c') * 16 + d) :: acc) fuel
              | _, _, _, _ => .error ⟨.invalidEscape, i⟩
            | _, _, _, _ => .error ⟨.invalidEscape, i⟩
          else
            match jsonEscChar e with
            | some d => jsonScanString cs start (i + 2) (d :: acc) fuel
            | none => .error ⟨.invalidEscape, i⟩
      else if c.toNat < 32 then .error ⟨.invalidControlCharacter, i⟩
      else jsonScanString cs start (i + 1) (c :: acc) fuel

/-- Length of a number literal starting at `i` (sign, integer part, optional
fraction and exponent), 0 when there is none.  `NaN`/`Infinity` handling is
omitted: those lexemes never occur in the inputs considered here. -/
def jsonNumLen (cs : List Char) (i : Nat) : Nat :=
  let rest := cs.drop i
  let (sign, r1) := match rest with
    | '-' :: r => (1, r)
    | _ => (0, rest)
  let intPart := (r1.takeWhile (fun c => c.isDigit)).length
  if intPart = 0 then 0
  else
    let r2 := r1.drop intPart
    let fracLen := match r2 with
      | '.' :: r =>
        let d := (r.takeWhile (fun c => c.isDigit)).length
        if d = 0 then 0 else d + 1
      | _ => 0
    let r3 := r2.drop fracLen
    let expLen := match r3 with
      | 'e' :: r | 'E' :: r =>
        let (s2, r') := match r with
          | '+' :: rr => (1, rr)
          | '-' :: rr => (1, rr)
          | _ => (0, r)
        let d := (r'.takeWhile (fun c => c.isDigit)).length
        if d = 0 then 0 else d + s2 + 1
      | _ => 0
    sign + intPart + fracLen + expLen

/-- The scanner's control points: parse a value at `i`; just after an
opening `{`; at the opening quote of the next object key (with the pairs
parsed so far); just after an opening `[`; just after an array element
(with the elements parsed so far).  A task tag instead of mutual functions
keeps the recursion structural on the fuel. -/
inductive PTask where
  | value (i : Nat)
  | objStart (i : Nat)
  | objItems (i : Nat) (acc : List (String × Json))
  | arrStart (i : Nat)
  | arrItems (i : Nat) (acc : List Json)

def PTask.pos : PTask → Nat
  | .value i => i
  | .objStart i => i
  | .objItems i _ => i
  | .arrStart i => i
  | .arrItems i _ => i

/-- The recursive core of the `json.loads` scanner. -/
def jsonP (cs : List Char) : Nat → PTask → Except JsonErr (Json × Nat)
  | 0, t => .error ⟨.expectingValue, t.pos⟩
  | fuel + 1, .value i =>
    (match cs[i]? with
     | none => .error ⟨.expectingValue, i⟩
     | some c =>
       if c = '"' then
         (jsonScanString cs i (i + 1) [] (cs.length + 1)).map (fun p => (Json.str p.1, p.2))
       else if c = '\x7b' then
         jsonP cs fuel (.objStart (i + 1))
       else if c = '[' then
         jsonP cs fuel (.arrStart (i + 1))
       else if ((cs.drop i).take 4).asString = "true" then .ok (Json.bool true, i + 4)
       else if ((cs.drop i).take 5).asString = "false" then .ok (Json.bool false, i + 5)
       else if ((cs.drop i).take 4).asString = "null" then .ok (Json.null, i + 4)
       else
         let n := jsonNumLen cs i
         if n = 0 then .error ⟨.expectingValue, i⟩
         else .ok (Json.num ((cs.drop i).take n).asString, i + n))
  | fuel + 1, .objStart i =>
    (match cs[i]? with
     | some '"' => jsonP cs fuel (.objItems i [])
     | _ =>
       let j := jsonSkipWs cs i
       match cs[j]? with
       | some '\x7d' => .ok (Json.obj [], j + 1)
       | some '"' => jsonP cs fuel (.objItems j [])
       | _ => .error ⟨.expectingPropertyName, j⟩)
  | fuel + 1, .objItems i acc =>
    (match jsonScanString cs i (i + 1) [] (cs.length + 1) with
     | .error e => .error e
     | .ok (key, j) =>
       let j := match cs[j]? with
         | some ':' => j
         | _ => jsonSkipWs cs j
       match cs[j]? with
       | some ':' =>
         let k := jsonSkipWs cs (j + 1)
         match jsonP cs fuel (.value k) with
         | .error e => .error e
         | .ok (v, m) =>
           let acc := (key, v) :: acc
           let m := jsonSkipWs cs m
           match cs[m]? with
           | some '\x7d' => .ok (Json.obj acc.reverse, m + 1)
           | some ',' =>
             let n := jsonSkipWs cs (m + 1)
             match cs[n]? with
             | some '"' => jsonP cs fuel (.objItems n acc)
             | _ => .error ⟨.expectingPropertyName, n⟩
           | _ => .error ⟨.expectingCommaDelimiter, m⟩
       | _ => .error ⟨.expectingColonDelimiter, j⟩)
  | fuel + 1, .arrStart i =>
    (let j := jsonSkipWs cs i
     match cs[j]? with
     | some ']' => .ok (Json.arr [], j + 1)
     | _ =>
       match jsonP cs fuel (.value j) with
       | .error e => .error e
       | .ok (v, m) => jsonP cs fuel (.arrItems m [v]))
  | fuel + 1, .arrItems i acc =>
    (let j := jsonSkipWs cs i
     match cs[j]? with
     | some ']' => .ok (Json.arr acc.reverse, j + 1)
     | some ',' =>
       let k := jsonSkipWs cs (j + 1)
       match jsonP cs fuel (.value k) with
       | .error e => .error e
       | .ok (v, m) => jsonP cs fuel (.arrItems m (v :: acc))
     | _ => .error ⟨.expectingCommaDelimiter, j⟩)

/-- Model of `json.loads`: parse one value, then require only whitespace to
follow.  The fuel `2 * |doc| + 2` dominates the scanner's step count (at
most two control steps per consumed character), so it never runs out on any
input. -/
def json_loads (doc : String) : Except JsonErr Json :=
  let cs := doc.data
  let i := jsonSkipWs cs 0
  match jsonP cs (2 * cs.length + 2) (.value i) with
  | .error e => .error e
  | .ok (v, j) =>
    let j := jsonSkipWs cs j
    if j < cs.length then .error ⟨.extraData, j⟩ else .ok v

/-! ## Recovery parser (`clean_json_response`, reviewer.py lines 26-119) -/

/-- `re.search(r'"\s*:\s*"$', text)` on the reversed character list: the
text ends with quote, whitespace*, colon, whitespace*, quote.  (At its call
site the text has been stripped, so the `$` anchor is plain end-of-text.) -/
def revMatchQColonQ (rcs : List Char) : Bool :=
  match rcs with
  | '"' :: rest =>
    match rest.dropWhile pyIsSpace with
    | ':' :: rest2 =>
      match rest2.dropWhile pyIsSpace with
      | '"' :: _ => true
      | _ => false
    | _ => false
  | _ => false

/-- State of the character scan of `clean_json_response` (lines 53-85). -/
structure ScanSt where
  brace_count : Int
  bracket_count : Int
  in_string : Bool
  escape_next : Bool
  last_valid_pos : Int
  last_complete_field : Int
deriving DecidableEq

def scanInit : ScanSt := ⟨0, 0, false, false, -1, -1⟩

/-- One iteration of the `for i, char in enumerate(text)` scan. -/
def scanStep (i : Nat) (st : ScanSt) (c : Char) : ScanSt :=
  if st.escape_next then { st with escape_next := false }
  else if c = '\\' then { st with escape_next := true }
  else if c = '"' then { st with in_string := !st.in_string }
  else if st.in_string then st
  else if c = '\x7b' then { st with brace_count := st.brace_count + 1 }
  else if c = '\x7d' then
    let b := st.brace_count - 1
    if b = 0 then { st with brace_count := b, last_valid_pos := (i : Int) }
    else { st with brace_count := b }
  else if c = '[' then { st with bracket_count := st.bracket_count + 1 }
  else if c = ']' then { st with bracket_count := st.bracket_count - 1 }
  else if c = ',' ∧ st.brace_count = 1 then { st with last_complete_field := (i : Int) }
  else st

def scanText (cs : List Char) : ScanSt :=
  (cs.enum).foldl (fun st p => scanStep p.1 st p.2) scanInit

/-- `re.sub(r',\s*,', ',', text)`: left-to-right, non-overlapping; the
scan resumes after each replacement.  (`\s` cannot match a comma, so the
greedy whitespace run is exact.) -/
def subDupCommaAux : Nat → List Char → List Char
  | 0, cs => cs
  | _ + 1, [] => []
  | fuel + 1, c :: rest =>
    if c = ',' then
      match rest.dropWhile pyIsSpace with
      | ',' :: tail => ',' :: subDupCommaAux fuel tail
      | _ => ',' :: subDupCommaAux fuel rest
    else c :: subDupCommaAux fuel rest

def subDupComma (s : String) : String := ⟨subDupCommaAux s.length s.data⟩

/-- `re.sub(r',\s*}', '}', text)` -/
def subCommaBraceAux : Nat → List Char → List Char
  | 0, cs => cs
  | _ + 1, [] => []
  | fuel + 1, c :: rest =>
    if c = ',' then
      match rest.dropWhile pyIsSpace with
      | '\x7d' :: tail => '\x7d' :: subCommaBraceAux fuel tail
      | _ => ',' :: subCommaBraceAux fuel rest
    else c :: subCommaBraceAux fuel rest

def subCommaBrace (s : String) : String := ⟨subCommaBraceAux s.length s.data⟩

/-- `re.sub(r',\s*]', ']', text)` -/
def subCommaBracketAux : Nat → List Char → List Char
  | 0, cs => cs
  | _ + 1, [] => []
  | fuel + 1, c :: rest =>
    if c = ',' then
      match rest.dropWhile pyIsSpace with
      | ']' :: tail => ']' :: subCommaBracketAux fuel tail
      | _ => ',' :: subCommaBracketAux fuel rest
    else c :: subCommaBracketAux fuel rest

def subCommaBracket (s : String) : String := ⟨subCommaBracketAux s.length s.data⟩

/-- `re.sub(r'"\s*:\s*$', '": ""', text)`: at the leftmost quote followed by
whitespace*, colon, whitespace* running to the end of the text, the matched
suffix is replaced by `": ""`.  (The greedy final `\s*` absorbs any trailing
newline, so the `$` anchor reduces to end-of-text.) -/
def subFieldNoValueAux : Nat → List Char → List Char
  | 0, cs => cs
  | _ + 1, [] => []
  | fuel + 1, c :: rest =>
    if c = '"' then
      match rest.dropWhile pyIsSpace with
      | ':' :: r2 =>
        if (r2.dropWhile pyIsSpace).isEmpty then ['"', ':', ' ', '"', '"']
        else '"' :: subFieldNoValueAux fuel rest
      | _ => '"' :: subFieldNoValueAux fuel rest
    else c :: subFieldNoValueAux fuel rest

def subFieldNoValue (s : String) : String := ⟨subFieldNoValueAux s.length s.data⟩

/-- `re.sub(r'"\s*:\s*"[^"]*$', lambda m: m.group(0) + '"', text)`: when a
quote, whitespace*, colon, whitespace*, quote is followed by no further
quote up to the end of the text, the greedy `[^"]*` runs to the end and the
replacement appends a closing quote at the end of the text. -/
def subUnterminatedValueAux : Nat → List Char → List Char
  | 0, cs => cs
  | _ + 1, [] => []
  | fuel + 1, c :: rest =>
    if c = '"' then
      match rest.dropWhile pyIsSpace with
      | ':' :: r2 =>
        (match r2.dropWhile pyIsSpace with
         | '"' :: r3 =>
           if !(r3.contains '"') then ('"' :: rest) ++ ['"']
           else '"' :: subUnterminatedValueAux fuel rest
         | _ => '"' :: subUnterminatedValueAux fuel rest)
      | _ => '"' :: subUnterminatedValueAux fuel rest
    else c :: subUnterminatedValueAux fuel rest

def subUnterminatedValue (s : String) : String := ⟨subUnterminatedValueAux s.length s.data⟩

/-- Shallow embedding of `clean_json_response` (`src/ultron/reviewer.py`,
lines 26-119): strip, ensure a leading `{`, close an unterminated trailing
string field, scan for depth / string state / last balanced close / last
top-level comma, truncate or append closers accordingly, then apply the
five `re.sub` clean-ups. -/
def clean_json_response (raw : String) : String :=
  -- text = text.strip()
  let text := pyStrip raw
  -- if not text.startswith('{'): text = '{' + text
  let text := if !(strStartsWith text "\x7b") then "\x7b" ++ text else text
  -- unterminated string handling at the end of the text (lines 40-50)
  let text :=
    if revMatchQColonQ text.data.reverse then text ++ "\"\""
    else if strEndsWith text "\"" then
      let last_colon := pyRfind text ':'
      if last_colon > 0 then
        let lc := last_colon.toNat
        let before_colon := if last_colon > 20 then pySlice text (lc - 20) lc else pyTake text lc
        if hasChar before_colon '"' && strStartsWith (pyStrip (pyDrop text lc)) ": \"" then
          text ++ "\""
        else text
      else text
    else text
  -- character scan (lines 53-85)
  let st := scanText text.data
  -- truncate back to the last complete top-level field (lines 87-90)
  let textIn :=
    if st.in_string ∧ st.last_complete_field > 0 then
      (pyTake text st.last_complete_field.toNat, false)
    else (text, st.in_string)
  let text := textIn.1
  let in_string := textIn.2
  -- use the last balanced close, or append closers (lines 92-108)
  let text :=
    if st.last_valid_pos > 0 then
      pyTake text (st.last_valid_pos.toNat + 1)
    else
      let open_braces : Int := (countChar text '\x7b' : Int) - (countChar text '\x7d' : Int)
      let open_brackets : Int := (countChar text '[' : Int) - (countChar text ']' : Int)
      let text := if in_string then text ++ "\"" else text
      let text := if open_brackets > 0 then text ++ repeatChar ']' open_brackets.toNat else text
      let text := if open_braces > 0 then text ++ repeatChar '\x7d' open_braces.toNat else text
      text
  -- the five formatting clean-ups (lines 111-117)
  subUnterminatedValue (subFieldNoValue (subCommaBracket (subCommaBrace (subDupComma text))))

/-! ## Single-shot review response processing (`get_gemini_review`) -/

/-- Modelled from the spec: `BatchReviewData` (the structured result
document) is imported from `ultron/models.py`, but that class is absent from
the given sources; its fields are reconstructed from its construction sites
in `ultron/reviewer.py` and its readers in `ultron/display.py` and
`ultron/main_cli.py`.  File reviews stay opaque JSON here. -/
structure BatchReviewData where
  overall_batch_summary : Option String := none
  file_reviews : List Json := []
  llm_processing_notes : Option String := none
  total_input_tokens : Option Nat := none
  error : Option String := none

def jsonLookup (kvs : List (String × Json)) (k : String) : Option Json :=
  (kvs.find? (fun p => p.1 == k)).map Prod.snd

/-- Modelled from the spec: pydantic validation `BatchReviewData(**parsed)`
for successfully parsed JSON, looking fields up by alias.  (No theorem below
depends on its exact behaviour; only the parse-failure paths are claimed.) -/
def batchReviewOfJson : Json → BatchReviewData
  | .obj kvs =>
    { overall_batch_summary :=
        match jsonLookup kvs "overallBatchSummary" with
        | some (.str s) => some s
        | _ => none
      file_reviews :=
        match jsonLookup kvs "fileReviews" with
        | some (.arr xs) => xs
        | _ => []
      llm_processing_notes :=
        match jsonLookup kvs "llmProcessingNotes" with
        | some (.str s) => some s
        | _ => none
      total_input_tokens := none
      error :=
        match jsonLookup kvs "error" with
        | some (.str s) => some s
        | _ => none }
  | _ => {}

structure PromptFeedback where
  block_reason : Option String
  safety_ratings : Option String
deriving DecidableEq

/-- A part of a single-shot review reply (`candidate.content.parts`). -/
structure ReviewPart where
  text : Option String
deriving DecidableEq

structure ReviewCandidate where
  parts : List ReviewPart
deriving DecidableEq

/-- A `generate_content` response as observed by `get_gemini_review`. -/
structure ReviewResponse where
  candidates : List ReviewCandidate
  prompt_feedback : Option PromptFeedback
deriving DecidableEq

def noContentMsg : String := "No content generated by API for the batch."

/-- The blocked-content error message (reviewer.py lines 210-213). -/
def blockedMsg (reason : String) (safety : Option String) : String :=
  "Batch content generation blocked. Reason: " ++ reason ++ "." ++
    (match safety with
     | some sr => " Safety Ratings: " ++ sr
     | none => "")

/-- The stub returned for an all-whitespace reply (lines 227-233). -/
def emptyResponseStub : BatchReviewData :=
  { error := some "Empty response from API",
    overall_batch_summary := some "Error: Empty response received",
    file_reviews := [],
    llm_processing_notes := some "API returned empty response" }

/-- The fallback stub built when the cleaned text still fails to parse
(lines 262-273): `json_err` is the error of the direct parse of `doc`, `e`
the error of the parse of `cleaned`. -/
def fallbackStub (doc cleaned : String) (json_err e : JsonErr) : BatchReviewData :=
  { overall_batch_summary := some "Response parsing failed due to truncated or malformed JSON",
    file_reviews := [],
    llm_processing_notes := some ("JSON parsing error: " ++ jsonErrString cleaned e ++
      ". Original error: " ++ jsonErrString doc json_err),
    error := some ("Failed to parse response: " ++ jsonErrString cleaned e) }

/-- The parse-and-repair tail of `get_gemini_review`
(`src/ultron/reviewer.py`, lines 235-273) as a function of the extracted
raw text: direct parse, repair with `clean_json_response` and re-parse,
and the fallback stub. -/
def parse_review_text (raw_json_text : String) : BatchReviewData :=
  match json_loads raw_json_text with
  | .ok v => batchReviewOfJson v
  | .error json_err =>
    let cleaned_json := clean_json_response raw_json_text
    match json_loads cleaned_json with
    | .ok v => batchReviewOfJson v
    | .error e => fallbackStub raw_json_text cleaned_json json_err e

/-- Shallow embedding of the response-processing tail of `get_gemini_review`
(`src/ultron/reviewer.py`, lines 208-273): blocked/empty-candidate handling,
raw text extraction, then the parse-and-repair chain.  Total: every response
yields a document. -/
def process_review_response (response : ReviewResponse) : BatchReviewData :=
  if response.candidates.isEmpty then
    let error_message :=
      match response.prompt_feedback with
      | some fb =>
        match fb.block_reason with
        | some reason => blockedMsg reason fb.safety_ratings
        | none => noContentMsg
      | none => noContentMsg
    { error := some error_message }
  else
    let raw_json_text :=
      String.join ((response.candidates.headD ⟨[]⟩).parts.filterMap (fun p =>
        match p.text with
        | some t => if t != "" then some t else none
        | none => none))
    if pyStrip raw_json_text = "" then emptyResponseStub
    else parse_review_text raw_json_text

/-! ## Result cache (`ultron/caching.py`) -/

/-- Minimal model of the `ReviewData` payload stored in the cache. -/
structure ReviewData where
  summary : String
  error : Option String := none
deriving DecidableEq

def CACHE_EXPIRY_SECONDS : Int := 24 * 60 * 60

/-- The state observed by `load_from_cache` for one cache key: whether
`{cache_key}.json` exists, its `st_mtime`, the `st_mtime` of the current
working directory (`Path.cwd()`), and the outcome of loading plus pydantic
re-validation of the stored JSON (`.error` = decode/validation failure). -/
structure CacheFile where
  fileExists : Bool
  file_mod_time : Int
  cwd_mod_time : Int
  stored : Except String ReviewData

/-- Shallow embedding of `load_from_cache` (`src/ultron/caching.py`, lines
36-55): the pair is the returned payload (if any) and whether the cache
file was removed (`cache_file.unlink()`). -/
def load_from_cache (cf : CacheFile) : Option ReviewData × Bool :=
  if cf.fileExists then
    if cf.cwd_mod_time - cf.file_mod_time < CACHE_EXPIRY_SECONDS then
      match cf.stored with
      | .ok data => (some data, false)
      | .error _ => (none, true)
    else
      (none, true)
  else (none, false)

/-- Spec-side definition: the wall-clock age at lookup time `now` of the
cache entry ("elapsed wall-clock time since it was written"). -/
def wall_clock_age (now : Int) (cf : CacheFile) : Int :=
  now - cf.file_mod_time

/-- UTF-8 encoding of one code point (RFC 3629); bytes as `Nat`. -/
def utf8EncodeCharNat (n : Nat) : List Nat :=
  if n < 0x80 then [n]
  else if n < 0x800 then
    [0xC0 ||| (n >>> 6), 0x80 ||| (n &&& 0x3F)]
  else if n < 0x10000 then
    [0xE0 ||| (n >>> 12), 0x80 ||| ((n >>> 6) &&& 0x3F), 0x80 ||| (n &&& 0x3F)]
  else
    [0xF0 ||| (n >>> 18), 0x80 ||| ((n >>> 12) &&& 0x3F),
      0x80 ||| ((n >>> 6) &&& 0x3F), 0x80 ||| (n &&& 0x3F)]

/-- UTF-8 bytes of a string, Python `s.encode('utf-8')`. -/
def utf8Bytes (s : String) : List Nat :=
  s.data.flatMap (fun c => utf8EncodeCharNat c.toNat)

/-- Bytes contributed by one optional field of `get_cache_key`: fed to the
hasher only when truthy (present and non-empty). -/
def optBytes : Option String → List Nat
  | some s => if s ≠ "" then utf8Bytes s else []
  | none => []

/-- The exact byte stream fed to the SHA-256 hasher by `get_cache_key`
(`src/ultron/caching.py`, lines 14-34): the present fields concatenated in
order with no separators or length prefixes. -/
def hasher_input (code language model_name : String)
    (additional_context frameworks_libraries security_requirements : Option String) :
    List Nat :=
  utf8Bytes code ++ utf8Bytes language ++ utf8Bytes model_name ++
    optBytes additional_context ++ optBytes frameworks_libraries ++
    optBytes security_requirements

/-- `get_cache_key`: the hex SHA-256 digest of the concatenated byte
stream.  SHA-256 itself is an external primitive, abstracted as an arbitrary
function `sha256` of the hashed bytes. -/
def get_cache_key (sha256 : List Nat → String)
    (code language model_name : String)
    (additional_context frameworks_libraries security_requirements : Option String) :
    String :=
  sha256 (hasher_input code language model_name
    additional_context frameworks_libraries security_requirements)

/-! ## Concrete instances used by the theorems below -/

/-- A filesystem with no files or directories and identity canonicalization. -/
def trivialFS : PyFS := ⟨fun p => p, fun _ => false, fun _ => false, fun _ => []⟩

/-- A sandbox rooted at `/sandbox` containing a symlink `link` that points
into the sibling directory `/sandbox-evil`, whose name extends the root's
name by a plain suffix. -/
def symlinkEscapeFS : PyFS where
  resolve := fun p => if p == "/sandbox/link" then "/sandbox-evil/secret" else p
  isFile := fun p => p == "/sandbox-evil/secret"
  isDir := fun _ => false
  listDir := fun _ => []

/-- A sandbox rooted at `/sandbox` whose root is the only existing
directory and holds one entry: for the target `a/b/c` neither the target
nor its parent `a/b` exists, while the root is an existing ancestor with
reportable contents. -/
def missingParentFS : PyFS where
  resolve := fun p => p
  isFile := fun _ => false
  isDir := fun p => p == "/sandbox"
  listDir := fun p => if p == "/sandbox" then ["exists.txt"] else []

/-- A model whose every reply is a well-formed `read_file_content` call. -/
def toolCallModel : List Content → ModelResponse := fun _ =>
  ⟨[⟨⟨"model", [funcCallPart ⟨"read_file_content", [("file_path", "a.txt")]⟩]⟩⟩]⟩

/-- A model whose every reply is a `read_file_content` call missing its
required `file_path` keyword argument. -/
def malformedCallModel : List Content → ModelResponse := fun _ =>
  ⟨[⟨⟨"model", [funcCallPart ⟨"read_file_content", []⟩]⟩⟩]⟩

/-- A model-backend failure as the agent loop observes it: every reply has
an empty candidate list. -/
def emptyCandidatesModel : List Content → ModelResponse := fun _ => ⟨[]⟩

/-- A single-candidate, single-part review reply carrying the raw text `t`. -/
def respOfText (t : String) : ReviewResponse := ⟨[⟨[⟨some t⟩]⟩], none⟩

/-- A JSON text truncated inside an unterminated string whose content holds
an opening brace: `{"a": "{` . -/
def jsonTruncBrace : String := "\x7b\"a\": \"\x7b"

/-- A cache entry written at mtime 0 — far older than the expiry window at
lookup time 200000 — on a host whose current working directory was last
modified at 50000. -/
def staleCacheFile : CacheFile := ⟨true, 0, 50000, .ok ⟨"cached summary", none⟩⟩

/-- A plain string character: printable ASCII that is not whitespace, not a
quote or backslash, and not one of JSON's structural characters. -/
def plainChar (c : Char) : Bool :=
  decide (32 < c.toNat ∧ c.toNat < 127 ∧ c ≠ '"' ∧ c ≠ '\\' ∧ c ≠ '\x7b' ∧ c ≠ '\x7d' ∧
    c ≠ '[' ∧ c ≠ ']' ∧ c ≠ ',' ∧ c ≠ ':')

/-- `{"k": "v` — an object truncated inside the unterminated string value. -/
def truncObj (k v : String) : String := "\x7b\"" ++ k ++ "\": \"" ++ v

/-- No position matches the fourth clean-up's pattern (`"\s*:\s*$`). -/
def noFNVMatch : List Char → Bool
  | [] => true
  | c :: rest =>
    if c = '"' then
      (match rest.dropWhile pyIsSpace with
       | ':' :: r2 => !(r2.dropWhile pyIsSpace).isEmpty
       | _ => true) && noFNVMatch rest
    else noFNVMatch rest

/-- No position matches the fifth clean-up's pattern (`"\s*:\s*"[^"]*$`). -/
def noUVMatch : List Char → Bool
  | [] => true
  | c :: rest =>
    if c = '"' then
      (match rest.dropWhile pyIsSpace with
       | ':' :: r2 =>
         (match r2.dropWhile pyIsSpace with
          | '"' :: r3 => r3.contains '"'
          | _ => true)
       | _ => true) && noUVMatch rest
    else noUVMatch rest

deriving instance DecidableEq for Except

/-! ## Theorems -/

theorem str_data_append (a b : String) : (a ++ b).data = a.data ++ b.data := by
  cases a; cases b; rfl

theorem truncObj_data (k v : String) :
    (truncObj k v).data =
      '\x7b' :: '"' :: (k.data ++ '"' :: ':' :: ' ' :: '"' :: v.data) := by
  simp [truncObj, str_data_append]

theorem plain_not_space {c : Char} (h : plainChar c = true) : pyIsSpace c = false := by
  have h' := of_decide_eq_true h
  obtain ⟨h1, -, -⟩ := h'
  simp only [pyIsSpace, Bool.or_eq_false_iff]
  refine ⟨⟨⟨⟨⟨?_, ?_⟩, ?_⟩, ?_⟩, ?_⟩, ?_⟩ <;>
    · rw [decide_eq_false_iff_not]
      intro he
      subst he
      simp at h1

theorem plain_ne_quote {c : Char} (h : plainChar c = true) : c ≠ '"' :=
  (of_decide_eq_true h).2.2.1

theorem plain_ne_backslash {c : Char} (h : plainChar c = true) : c ≠ '\\' :=
  (of_decide_eq_true h).2.2.2.1

theorem plain_not_lt32 {c : Char} (h : plainChar c = true) : ¬(c.toNat < 32) := by
  have h1 := (of_decide_eq_true h).1
  omega

theorem dropWhile_cons_nonspace {c : Char} (h : pyIsSpace c = false) (l : List Char) :
    (c :: l).dropWhile pyIsSpace = c :: l := by
  simp [List.dropWhile_cons, h]

theorem pyStrip_of_ends (a : Char) (mid : List Char) (b : Char)
    (ha : pyIsSpace a = false) (hb : pyIsSpace b = false) :
    pyStrip ⟨a :: (mid ++ [b])⟩ = ⟨a :: (mid ++ [b])⟩ := by
  unfold pyStrip
  rw [show (String.mk (a :: (mid ++ [b]))).data = a :: (mid ++ [b]) from rfl]
  rw [dropWhile_cons_nonspace ha]
  have hrev : (a :: (mid ++ [b])).reverse = b :: (mid.reverse ++ [a]) := by
    simp
  rw [hrev, dropWhile_cons_nonspace hb, ← hrev, List.reverse_reverse]

theorem revMatch_false_of_head {c : Char} (hc : c ≠ '"') (rest : List Char) :
    revMatchQColonQ (c :: rest) = false := by
  unfold revMatchQColonQ
  split
  · rename_i heq
    injection heq with h1 _
    exact absurd h1 hc
  · rfl

theorem isPrefixOf_singleton_cons_ne {a c : Char} (h : a ≠ c) (l : List Char) :
    [a].isPrefixOf (c :: l) = false := by
  simp [List.isPrefixOf, h]

theorem scan_foldl_plain (l : List (Nat × Char)) (hl : ∀ p ∈ l, plainChar p.2 = true)
    (st : ScanSt) (hin : st.in_string = true) (hesc : st.escape_next = false) :
    l.foldl (fun st p => scanStep p.1 st p.2) st = st := by
  induction l generalizing st with
  | nil => rfl
  | cons p ps ih =>
    have hp := hl p (by simp)
    have hstep : scanStep p.1 st p.2 = st := by
      unfold scanStep
      simp [hesc, hin, plain_ne_quote hp, plain_ne_backslash hp]
    rw [List.foldl_cons, hstep]
    exact ih (fun q hq => hl q (by simp [hq])) st hin hesc

theorem mem_enumFrom_plain {l : List Char} (hl : l.all plainChar = true)
    (n : Nat) : ∀ p ∈ List.enumFrom n l, plainChar p.2 = true := by
  intro p hp
  obtain ⟨i, c⟩ := p
  obtain ⟨-, -, h3⟩ := List.mem_enumFrom hp
  rw [h3]
  exact (List.all_eq_true.mp hl) _ (List.getElem_mem _)

theorem scanText_truncObj (k v : String)
    (hk : k.data.all plainChar = true) (hv : v.data.all plainChar = true) :
    scanText (truncObj k v).data = ⟨1, 0, true, false, -1, -1⟩ := by
  rw [truncObj_data]
  unfold scanText
  rw [show List.enum ('\x7b' :: '"' :: (k.data ++ '"' :: ':' :: ' ' :: '"' :: v.data)) =
    (0, '\x7b') :: (1, '"') :: List.enumFrom 2 (k.data ++ '"' :: ':' :: ' ' :: '"' :: v.data)
    from rfl]
  rw [List.enumFrom_append, List.foldl_cons, List.foldl_cons, List.foldl_append]
  rw [show (scanStep (1, '"').1 (scanStep (0, '\x7b').1 scanInit (0, '\x7b').2) (1, '"').2) =
      (⟨1, 0, true, false, -1, -1⟩ : ScanSt) from rfl]
  rw [scan_foldl_plain _ (mem_enumFrom_plain hk 2) _ rfl rfl]
  rw [show List.enumFrom (2 + k.data.length) ('"' :: ':' :: ' ' :: '"' :: v.data) =
    (2 + k.data.length, '"') :: (2 + k.data.length + 1, ':') :: (2 + k.data.length + 2, ' ') ::
      (2 + k.data.length + 3, '"') :: List.enumFrom (2 + k.data.length + 4) v.data from rfl]
  rw [List.foldl_cons, List.foldl_cons, List.foldl_cons, List.foldl_cons]
  rw [show (scanStep (2 + k.data.length, '"').1 (⟨1, 0, true, false, -1, -1⟩ : ScanSt)
        (2 + k.data.length, '"').2) = (⟨1, 0, false, false, -1, -1⟩ : ScanSt) from rfl]
  rw [show (scanStep (2 + k.data.length + 1, ':').1 (⟨1, 0, false, false, -1, -1⟩ : ScanSt)
        (2 + k.data.length + 1, ':').2) = (⟨1, 0, false, false, -1, -1⟩ : ScanSt) from rfl]
  rw [show (scanStep (2 + k.data.length + 2, ' ').1 (⟨1, 0, false, false, -1, -1⟩ : ScanSt)
        (2 + k.data.length + 2, ' ').2) = (⟨1, 0, false, false, -1, -1⟩ : ScanSt) from rfl]
  rw [show (scanStep (2 + k.data.length + 3, '"').1 (⟨1, 0, false, false, -1, -1⟩ : ScanSt)
        (2 + k.data.length + 3, '"').2) = (⟨1, 0, true, false, -1, -1⟩ : ScanSt) from rfl]
  exact scan_foldl_plain _ (mem_enumFrom_plain hv _) _ rfl rfl

theorem subDupCommaAux_id {cs : List Char} (h : ∀ c ∈ cs, c ≠ ',') (fuel : Nat) :
    subDupCommaAux fuel cs = cs := by
  induction fuel generalizing cs with
  | zero => rfl
  | succ f ih =>
    cases cs with
    | nil => rfl
    | cons c rest =>
      have hc : c ≠ ',' := h c (by simp)
      simp only [subDupCommaAux, if_neg hc]
      rw [ih (fun d hd => h d (by simp [hd]))]

theorem subCommaBraceAux_id {cs : List Char} (h : ∀ c ∈ cs, c ≠ ',') (fuel : Nat) :
    subCommaBraceAux fuel cs = cs := by
  induction fuel generalizing cs with
  | zero => rfl
  | succ f ih =>
    cases cs with
    | nil => rfl
    | cons c rest =>
      have hc : c ≠ ',' := h c (by simp)
      simp only [subCommaBraceAux, if_neg hc]
      rw [ih (fun d hd => h d (by simp [hd]))]

theorem subCommaBracketAux_id {cs : List Char} (h : ∀ c ∈ cs, c ≠ ',') (fuel : Nat) :
    subCommaBracketAux fuel cs = cs := by
  induction fuel generalizing cs with
  | zero => rfl
  | succ f ih =>
    cases cs with
    | nil => rfl
    | cons c rest =>
      have hc : c ≠ ',' := h c (by simp)
      simp only [subCommaBracketAux, if_neg hc]
      rw [ih (fun d hd => h d (by simp [hd]))]

theorem subFieldNoValueAux_id {cs : List Char} (h : noFNVMatch cs = true) (fuel : Nat) :
    subFieldNoValueAux fuel cs = cs := by
  induction fuel generalizing cs with
  | zero => rfl
  | succ f ih =>
    cases cs with
    | nil => rfl
    | cons c rest =>
      by_cases hc : c = '"'
      · subst hc
        simp only [noFNVMatch] at h
        rw [if_true] at h
        cases hA : (match rest.dropWhile pyIsSpace with
            | ':' :: r2 => !(r2.dropWhile pyIsSpace).isEmpty
            | _ => true) with
        | false => rw [hA] at h; simp at h
        | true =>
          rw [hA] at h
          have h2 : noFNVMatch rest = true := by simpa using h
          simp only [subFieldNoValueAux]
          rw [if_true]
          split
          · rename_i r2 heq
            rw [heq] at hA
            have h1' : (r2.dropWhile pyIsSpace).isEmpty = false := by simpa using hA
            rw [if_neg (by simp [h1']), ih h2]
          · rw [ih h2]
      · simp only [noFNVMatch, if_neg hc] at h
        simp only [subFieldNoValueAux, if_neg hc]
        rw [ih h]

theorem subUnterminatedValueAux_id {cs : List Char} (h : noUVMatch cs = true) (fuel : Nat) :
    subUnterminatedValueAux fuel cs = cs := by
  induction fuel generalizing cs with
  | zero => rfl
  | succ f ih =>
    cases cs with
    | nil => rfl
    | cons c rest =>
      by_cases hc : c = '"'
      · subst hc
        simp only [noUVMatch] at h
        rw [if_true] at h
        cases hA : (match rest.dropWhile pyIsSpace with
            | ':' :: r2 =>
              (match r2.dropWhile pyIsSpace with
               | '"' :: r3 => r3.contains '"'
               | _ => true)
            | _ => true) with
        | false => rw [hA] at h; simp at h
        | true =>
          rw [hA] at h
          have h2 : noUVMatch rest = true := by simpa using h
          simp only [subUnterminatedValueAux]
          rw [if_true]
          split
          · rename_i r2 heq
            rw [heq] at hA
            have hA2 : (match r2.dropWhile pyIsSpace with
                | '"' :: r3 => r3.contains '"'
                | _ => true) = true := hA
            split
            · rename_i r3 heq2
              rw [heq2] at hA2
              have h1' : r3.contains '"' = true := hA2
              rw [if_neg (by rw [h1']; decide), ih h2]
            · rw [ih h2]
          · rw [ih h2]
      · simp only [noUVMatch, if_neg hc] at h
        simp only [subUnterminatedValueAux, if_neg hc]
        rw [ih h]

theorem plain_ne_obrace {c : Char} (h : plainChar c = true) : c ≠ '\x7b' :=
  (of_decide_eq_true h).2.2.2.2.1

theorem plain_ne_cbrace {c : Char} (h : plainChar c = true) : c ≠ '\x7d' :=
  (of_decide_eq_true h).2.2.2.2.2.1

theorem plain_ne_obracket {c : Char} (h : plainChar c = true) : c ≠ '[' :=
  (of_decide_eq_true h).2.2.2.2.2.2.1

theorem plain_ne_cbracket {c : Char} (h : plainChar c = true) : c ≠ ']' :=
  (of_decide_eq_true h).2.2.2.2.2.2.2.1

theorem plain_ne_comma {c : Char} (h : plainChar c = true) : c ≠ ',' :=
  (of_decide_eq_true h).2.2.2.2.2.2.2.2.1

theorem plain_ne_colon {c : Char} (h : plainChar c = true) : c ≠ ':' :=
  (of_decide_eq_true h).2.2.2.2.2.2.2.2.2

theorem noFNVMatch_cons_ne {c : Char} (hc : c ≠ '"') (rest : List Char) :
    noFNVMatch (c :: rest) = noFNVMatch rest := by
  simp only [noFNVMatch, if_neg hc]

theorem noFNVMatch_cons_quote (rest : List Char) :
    noFNVMatch ('"' :: rest) =
      ((match rest.dropWhile pyIsSpace with
        | ':' :: r2 => !(r2.dropWhile pyIsSpace).isEmpty
        | _ => true) && noFNVMatch rest) := by
  simp only [noFNVMatch]
  rw [if_true]

theorem noUVMatch_cons_ne {c : Char} (hc : c ≠ '"') (rest : List Char) :
    noUVMatch (c :: rest) = noUVMatch rest := by
  simp only [noUVMatch, if_neg hc]

theorem noUVMatch_cons_quote (rest : List Char) :
    noUVMatch ('"' :: rest) =
      ((match rest.dropWhile pyIsSpace with
        | ':' :: r2 =>
          (match r2.dropWhile pyIsSpace with
           | '"' :: r3 => r3.contains '"'
           | _ => true)
        | _ => true) && noUVMatch rest) := by
  simp only [noUVMatch]
  rw [if_true]

theorem noFNVMatch_append_plain {l : List Char} (hl : l.all plainChar = true)
    (rest : List Char) : noFNVMatch (l ++ rest) = noFNVMatch rest := by
  induction l with
  | nil => rfl
  | cons c cs ih =>
    simp only [List.all_cons, Bool.and_eq_true] at hl
    rw [List.cons_append, noFNVMatch_cons_ne (plain_ne_quote hl.1)]
    exact ih hl.2

theorem noUVMatch_append_plain {l : List Char} (hl : l.all plainChar = true)
    (rest : List Char) : noUVMatch (l ++ rest) = noUVMatch rest := by
  induction l with
  | nil => rfl
  | cons c cs ih =>
    simp only [List.all_cons, Bool.and_eq_true] at hl
    rw [List.cons_append, noUVMatch_cons_ne (plain_ne_quote hl.1)]
    exact ih hl.2

theorem dropWhile_ws_plain_append {l : List Char} (hl : l.all plainChar = true)
    {c : Char} (hc : pyIsSpace c = false) (r : List Char) :
    (l ++ c :: r).dropWhile pyIsSpace = l ++ c :: r := by
  cases l with
  | nil => exact dropWhile_cons_nonspace hc r
  | cons d ds =>
    simp only [List.all_cons, Bool.and_eq_true] at hl
    exact dropWhile_cons_nonspace (plain_not_space hl.1) _

theorem colon_match_cons_ne {c : Char} (hc : c ≠ ':') (r : List Char)
    (f : List Char → Bool) :
    (match c :: r with | ':' :: r2 => f r2 | _ => true) = true := by
  split
  · rename_i heq
    injection heq with h1 h2
    exact absurd h1 hc
  · rfl

theorem colon_match_plain_append {l : List Char} (hl : l.all plainChar = true)
    {c : Char} (hc : c ≠ ':') (r : List Char) (f : List Char → Bool) :
    (match l ++ c :: r with | ':' :: r2 => f r2 | _ => true) = true := by
  cases l with
  | nil => exact colon_match_cons_ne hc r f
  | cons d ds =>
    simp only [List.all_cons, Bool.and_eq_true] at hl
    exact colon_match_cons_ne (plain_ne_colon hl.1) _ f

theorem contains_quote_append_closer (l : List Char) :
    (l ++ ['"', '\x7d']).contains '"' = true := by
  simp

theorem noFNVMatch_closed {k v : String} (hk : k.data.all plainChar = true)
    (hv : v.data.all plainChar = true) :
    noFNVMatch ('\x7b' :: '"' ::
      (k.data ++ '"' :: ':' :: ' ' :: '"' :: (v.data ++ ['"', '\x7d']))) = true := by
  rw [noFNVMatch_cons_ne (by decide), noFNVMatch_cons_quote]
  rw [dropWhile_ws_plain_append hk (by decide)]
  rw [colon_match_plain_append hk (by decide)]
  rw [Bool.true_and, noFNVMatch_append_plain hk, noFNVMatch_cons_quote]
  rw [show (':' :: ' ' :: '"' :: (v.data ++ ['"', '\x7d'])).dropWhile pyIsSpace =
    ':' :: ' ' :: '"' :: (v.data ++ ['"', '\x7d']) from dropWhile_cons_nonspace (by decide) _]
  rw [show (match (':' :: ' ' :: '"' :: (v.data ++ ['"', '\x7d']) : List Char) with
      | ':' :: r2 => !(r2.dropWhile pyIsSpace).isEmpty
      | _ => true) =
    !((' ' :: '"' :: (v.data ++ ['"', '\x7d'])).dropWhile pyIsSpace).isEmpty from rfl]
  rw [show ((' ' :: '"' :: (v.data ++ ['"', '\x7d'])).dropWhile pyIsSpace) =
    '"' :: (v.data ++ ['"', '\x7d']) from by
      rw [List.dropWhile_cons]
      simp only [show pyIsSpace ' ' = true from by decide, if_true]
      exact dropWhile_cons_nonspace (by decide) _]
  rw [show (!(('"' :: (v.data ++ ['"', '\x7d']) : List Char)).isEmpty) = true from rfl]
  rw [Bool.true_and, noFNVMatch_cons_ne (by decide), noFNVMatch_cons_ne (by decide)]
  rw [noFNVMatch_cons_quote]
  rw [dropWhile_ws_plain_append hv (by decide)]
  rw [colon_match_plain_append hv (by decide)]
  rw [Bool.true_and, noFNVMatch_append_plain hv, noFNVMatch_cons_quote]
  rw [show (['\x7d'] : List Char).dropWhile pyIsSpace = ['\x7d'] from by decide]
  rw [show (match (['\x7d'] : List Char) with
      | ':' :: r2 => !(r2.dropWhile pyIsSpace).isEmpty
      | _ => true) = true from rfl]
  rw [Bool.true_and, noFNVMatch_cons_ne (by decide)]
  rfl

theorem noUVMatch_closed {k v : String} (hk : k.data.all plainChar = true)
    (hv : v.data.all plainChar = true) :
    noUVMatch ('\x7b' :: '"' ::
      (k.data ++ '"' :: ':' :: ' ' :: '"' :: (v.data ++ ['"', '\x7d']))) = true := by
  rw [noUVMatch_cons_ne (by decide), noUVMatch_cons_quote]
  rw [dropWhile_ws_plain_append hk (by decide)]
  rw [colon_match_plain_append hk (by decide)]
  rw [Bool.true_and, noUVMatch_append_plain hk, noUVMatch_cons_quote]
  rw [show (':' :: ' ' :: '"' :: (v.data ++ ['"', '\x7d'])).dropWhile pyIsSpace =
    ':' :: ' ' :: '"' :: (v.data ++ ['"', '\x7d']) from dropWhile_cons_nonspace (by decide) _]
  show ((match (' ' :: '"' :: (v.data ++ ['"', '\x7d'])).dropWhile pyIsSpace with
       | '"' :: r3 => r3.contains '"'
       | _ => true) && noUVMatch (':' :: ' ' :: '"' :: (v.data ++ ['"', '\x7d']))) = true
  rw [show ((' ' :: '"' :: (v.data ++ ['"', '\x7d'])).dropWhile pyIsSpace) =
    '"' :: (v.data ++ ['"', '\x7d']) from by
      rw [List.dropWhile_cons]
      simp only [show pyIsSpace ' ' = true from by decide, if_true]
      exact dropWhile_cons_nonspace (by decide) _]
  show ((v.data ++ ['"', '\x7d']).contains '"' &&
    noUVMatch (':' :: ' ' :: '"' :: (v.data ++ ['"', '\x7d']))) = true
  rw [contains_quote_append_closer]
  rw [Bool.true_and, noUVMatch_cons_ne (by decide), noUVMatch_cons_ne (by decide)]
  rw [noUVMatch_cons_quote]
  rw [dropWhile_ws_plain_append hv (by decide)]
  rw [colon_match_plain_append hv (by decide)]
  rw [Bool.true_and, noUVMatch_append_plain hv, noUVMatch_cons_quote]
  rw [show (['\x7d'] : List Char).dropWhile pyIsSpace = ['\x7d'] from by decide]
  show (true && noUVMatch ['\x7d']) = true
  rw [Bool.true_and, noUVMatch_cons_ne (by decide)]
  rfl

theorem countP_eq_zero_of_plain {l : List Char} (hl : l.all plainChar = true)
    {x : Char} (hx : ∀ c, plainChar c = true → c ≠ x) :
    l.countP (fun d => d = x) = 0 := by
  rw [List.countP_eq_zero]
  intro a ha
  simp only [decide_eq_true_eq]
  exact hx a (List.all_eq_true.mp hl a ha)

theorem countChar_truncObj (k v : String) (hk : k.data.all plainChar = true)
    (hv : v.data.all plainChar = true) :
    countChar (truncObj k v) '\x7b' = 1 ∧ countChar (truncObj k v) '\x7d' = 0 ∧
    countChar (truncObj k v) '[' = 0 ∧ countChar (truncObj k v) ']' = 0 := by
  refine ⟨?_, ?_, ?_, ?_⟩ <;>
  · unfold countChar
    rw [truncObj_data]
    simp [List.countP_cons, List.countP_append,
      countP_eq_zero_of_plain hk (fun c hc => plain_ne_obrace hc),
      countP_eq_zero_of_plain hv (fun c hc => plain_ne_obrace hc),
      countP_eq_zero_of_plain hk (fun c hc => plain_ne_cbrace hc),
      countP_eq_zero_of_plain hv (fun c hc => plain_ne_cbrace hc),
      countP_eq_zero_of_plain hk (fun c hc => plain_ne_obracket hc),
      countP_eq_zero_of_plain hv (fun c hc => plain_ne_obracket hc),
      countP_eq_zero_of_plain hk (fun c hc => plain_ne_cbracket hc),
      countP_eq_zero_of_plain hv (fun c hc => plain_ne_cbracket hc)]

theorem str_mk_data (s : String) : (⟨s.data⟩ : String) = s := by
  cases s
  rfl

theorem string_ne_iff_data {v : String} (h : v ≠ "") : v.data ≠ [] := by
  intro hd
  exact h (String.ext hd)

theorem clean_truncObj (k v : String) (hk : k.data.all plainChar = true)
    (hv : v.data.all plainChar = true) (hvne : v ≠ "") :
    clean_json_response (truncObj k v) = truncObj k v ++ "\"\x7d" := by
  obtain ⟨init, lastc, hvd⟩ :=
    (List.eq_nil_or_concat v.data).resolve_left (string_ne_iff_data hvne)
  have hlastc : plainChar lastc = true :=
    List.all_eq_true.mp hv lastc (by rw [hvd]; simp)
  have hinit : init.all plainChar = true := by
    rw [List.all_eq_true]
    intro c hc
    exact List.all_eq_true.mp hv c (by rw [hvd]; simp [hc])
  have hshape : truncObj k v =
      ⟨'\x7b' :: (('"' :: (k.data ++ '"' :: ':' :: ' ' :: '"' :: init)) ++ [lastc])⟩ := by
    apply String.ext
    rw [truncObj_data, hvd]
    simp
  have h1 : pyStrip (truncObj k v) = truncObj k v := by
    rw [hshape]
    exact pyStrip_of_ends _ _ _ (by decide) (plain_not_space hlastc)
  have h2 : strStartsWith (truncObj k v) "\x7b" = true := by
    unfold strStartsWith
    rw [truncObj_data]
    simp [List.isPrefixOf]
  have hrev : (truncObj k v).data.reverse =
      lastc :: (('"' :: (k.data ++ '"' :: ':' :: ' ' :: '"' :: init)).reverse ++ ['\x7b']) := by
    rw [hshape]
    simp
  have h3 : revMatchQColonQ (truncObj k v).data.reverse = false := by
    rw [hrev]
    exact revMatch_false_of_head (plain_ne_quote hlastc) _
  have h4 : strEndsWith (truncObj k v) "\"" = false := by
    unfold strEndsWith
    rw [hrev]
    exact isPrefixOf_singleton_cons_ne (fun he => plain_ne_quote hlastc he.symm) _
  have h5 : scanText (truncObj k v).data = ⟨1, 0, true, false, -1, -1⟩ :=
    scanText_truncObj k v hk hv
  obtain ⟨hc1, hc2, hc3, hc4⟩ := countChar_truncObj k v hk hv
  unfold clean_json_response
  simp only [h1, h2, h3, h4, h5, hc1, hc2, hc3, hc4, Bool.not_true, Bool.not_false, reduceIte,
    reduceCtorEq]
  have hrep : repeatChar '\x7d' 1 = "\x7d" := rfl
  norm_num [hc1, hc2, hc3, hc4, hrep]

  have hT : truncObj k v ++ "\"" ++ "\x7d" = truncObj k v ++ "\"\x7d" := by
    rw [String.append_assoc]
    rfl
  have hTd : (truncObj k v ++ "\"\x7d").data =
      '\x7b' :: '"' :: (k.data ++ '"' :: ':' :: ' ' :: '"' :: (v.data ++ ['"', '\x7d'])) := by
    rw [str_data_append, truncObj_data]
    simp
  have hnc : ∀ c ∈ (truncObj k v ++ "\"\x7d").data, c ≠ ',' := by
    intro c hc
    rw [hTd] at hc
    simp only [List.mem_cons, List.mem_append, List.not_mem_nil, or_false] at hc
    rcases hc with rfl | rfl | hk' | rfl | rfl | rfl | rfl | hv' | rfl | rfl
    · decide
    · decide
    · exact plain_ne_comma (List.all_eq_true.mp hk c hk')
    · decide
    · decide
    · decide
    · decide
    · exact plain_ne_comma (List.all_eq_true.mp hv c hv')
    · decide
    · decide
  have hfnv : noFNVMatch (truncObj k v ++ "\"\x7d").data = true := by
    rw [hTd]
    exact noFNVMatch_closed hk hv
  have huv : noUVMatch (truncObj k v ++ "\"\x7d").data = true := by
    rw [hTd]
    exact noUVMatch_closed hk hv
  rw [hT]
  rw [show subDupComma (truncObj k v ++ "\"\x7d") = truncObj k v ++ "\"\x7d" from by
    unfold subDupComma
    rw [subDupCommaAux_id hnc]]
  rw [show subCommaBrace (truncObj k v ++ "\"\x7d") = truncObj k v ++ "\"\x7d" from by
    unfold subCommaBrace
    rw [subCommaBraceAux_id hnc]]
  rw [show subCommaBracket (truncObj k v ++ "\"\x7d") = truncObj k v ++ "\"\x7d" from by
    unfold subCommaBracket
    rw [subCommaBracketAux_id hnc]]
  rw [show subFieldNoValue (truncObj k v ++ "\"\x7d") = truncObj k v ++ "\"\x7d" from by
    unfold subFieldNoValue
    rw [subFieldNoValueAux_id hfnv]]
  unfold subUnterminatedValue
  rw [subUnterminatedValueAux_id huv]

theorem plain_not_ws {c : Char} (h : plainChar c = true) : jsonIsWs c = false := by
  unfold plainChar at h
  simp only [Bool.and_eq_true, decide_eq_true_eq] at h
  unfold jsonIsWs
  simp only [Bool.or_eq_false_iff, decide_eq_false_iff_not]
  refine ⟨⟨⟨?_, ?_⟩, ?_⟩, ?_⟩ <;> intro he <;> subst he <;> revert h <;> decide

theorem jsonSkipWs_head_not_ws {cs : List Char} {i : Nat} {c : Char} {rest : List Char}
    (hdrop : cs.drop i = c :: rest) (hc : jsonIsWs c = false) : jsonSkipWs cs i = i := by
  unfold jsonSkipWs
  rw [hdrop, List.takeWhile_cons, hc]
  rfl

theorem jsonSkipWs_nil {cs : List Char} {i : Nat} (hdrop : cs.drop i = []) :
    jsonSkipWs cs i = i := by
  unfold jsonSkipWs
  rw [hdrop]
  rfl

theorem jsonScanString_plain (cs : List Char) (start : Nat) (l post : List Char)
    (hl : l.all plainChar = true) (acc : List Char) (i : Nat)
    (hdrop : cs.drop i = l ++ '"' :: post) (fuel : Nat) (hfuel : l.length < fuel) :
    jsonScanString cs start i acc fuel =
      .ok (⟨acc.reverse ++ l⟩, i + l.length + 1) := by
  induction l generalizing acc i fuel with
  | nil =>
    cases fuel with
    | zero => exact absurd hfuel (Nat.not_lt_zero _)
    | succ f =>
      have hc : cs[i]? = some '"' := by
        rw [← List.head?_drop, hdrop]
        rfl
      simp only [jsonScanString, hc]
      rw [if_true]
      simp
  | cons c l ih =>
    cases fuel with
    | zero => exact absurd hfuel (Nat.not_lt_zero _)
    | succ f =>
      have hc : cs[i]? = some c := by
        rw [← List.head?_drop, hdrop]
        rfl
      simp only [List.all_cons, Bool.and_eq_true] at hl
      have hdrop' : cs.drop (i + 1) = l ++ '"' :: post := by
        rw [← List.tail_drop, hdrop]
        rfl
      have hfuel' : l.length < f := by
        simp only [List.length_cons] at hfuel
        omega
      rw [show jsonScanString cs start i acc (f + 1) =
          jsonScanString cs start (i + 1) (c :: acc) f from by
        simp only [jsonScanString, hc]
        rw [if_neg (plain_ne_quote hl.1), if_neg (plain_ne_backslash hl.1),
            if_neg (plain_not_lt32 hl.1)]]
      rw [ih hl.2 (c :: acc) (i + 1) hdrop' f hfuel']
      have harr : (c :: acc).reverse ++ l = acc.reverse ++ c :: l := by simp
      rw [harr, show i + 1 + l.length + 1 = i + (c :: l).length + 1 from by
        simp only [List.length_cons]
        omega]

theorem scanText_closed (k v : String)
    (hk : k.data.all plainChar = true) (hv : v.data.all plainChar = true) :
    scanText ('\x7b' :: '"' :: (k.data ++ '"' :: ':' :: ' ' :: '"' :: (v.data ++ ['"', '\x7d']))) =
      ⟨0, 0, false, false, ((2 + k.data.length + 4 + v.data.length + 1 : Nat) : Int), -1⟩ := by
  unfold scanText
  rw [show List.enum ('\x7b' :: '"' :: (k.data ++ '"' :: ':' :: ' ' :: '"' :: (v.data ++ ['"', '\x7d']))) =
    (0, '\x7b') :: (1, '"') ::
      List.enumFrom 2 (k.data ++ '"' :: ':' :: ' ' :: '"' :: (v.data ++ ['"', '\x7d']))
    from rfl]
  rw [List.enumFrom_append, List.foldl_cons, List.foldl_cons, List.foldl_append]
  rw [show (scanStep (1, '"').1 (scanStep (0, '\x7b').1 scanInit (0, '\x7b').2) (1, '"').2) =
      (⟨1, 0, true, false, -1, -1⟩ : ScanSt) from rfl]
  rw [scan_foldl_plain _ (mem_enumFrom_plain hk 2) _ rfl rfl]
  rw [show List.enumFrom (2 + k.data.length) ('"' :: ':' :: ' ' :: '"' :: (v.data ++ ['"', '\x7d'])) =
    (2 + k.data.length, '"') :: (2 + k.data.length + 1, ':') :: (2 + k.data.length + 2, ' ') ::
      (2 + k.data.length + 3, '"') :: List.enumFrom (2 + k.data.length + 4) (v.data ++ ['"', '\x7d'])
    from rfl]
  rw [List.enumFrom_append, List.foldl_cons, List.foldl_cons, List.foldl_cons, List.foldl_cons,
    List.foldl_append]
  rw [show (scanStep (2 + k.data.length, '"').1 (⟨1, 0, true, false, -1, -1⟩ : ScanSt)
        (2 + k.data.length, '"').2) = (⟨1, 0, false, false, -1, -1⟩ : ScanSt) from rfl]
  rw [show (scanStep (2 + k.data.length + 1, ':').1 (⟨1, 0, false, false, -1, -1⟩ : ScanSt)
        (2 + k.data.length + 1, ':').2) = (⟨1, 0, false, false, -1, -1⟩ : ScanSt) from rfl]
  rw [show (scanStep (2 + k.data.length + 2, ' ').1 (⟨1, 0, false, false, -1, -1⟩ : ScanSt)
        (2 + k.data.length + 2, ' ').2) = (⟨1, 0, false, false, -1, -1⟩ : ScanSt) from rfl]
  rw [show (scanStep (2 + k.data.length + 3, '"').1 (⟨1, 0, false, false, -1, -1⟩ : ScanSt)
        (2 + k.data.length + 3, '"').2) = (⟨1, 0, true, false, -1, -1⟩ : ScanSt) from rfl]
  rw [scan_foldl_plain _ (mem_enumFrom_plain hv _) _ rfl rfl]
  rw [show List.enumFrom (2 + k.data.length + 4 + v.data.length) ['"', '\x7d'] =
    (2 + k.data.length + 4 + v.data.length, '"') ::
      (2 + k.data.length + 4 + v.data.length + 1, '\x7d') :: [] from rfl]
  rw [List.foldl_cons, List.foldl_cons]
  rw [show (scanStep (2 + k.data.length + 4 + v.data.length, '"').1
        (⟨1, 0, true, false, -1, -1⟩ : ScanSt)
        (2 + k.data.length + 4 + v.data.length, '"').2) =
      (⟨1, 0, false, false, -1, -1⟩ : ScanSt) from rfl]
  rw [show (scanStep (2 + k.data.length + 4 + v.data.length + 1, '\x7d').1
        (⟨1, 0, false, false, -1, -1⟩ : ScanSt)
        (2 + k.data.length + 4 + v.data.length + 1, '\x7d').2) =
      (⟨0, 0, false, false,
        ((2 + k.data.length + 4 + v.data.length + 1 : Nat) : Int), -1⟩ : ScanSt) from rfl]
  rfl

theorem pyTake_full {s : String} {n : Nat} (h : s.data.length ≤ n) : pyTake s n = s := by
  unfold pyTake
  rw [List.take_of_length_le h]

theorem closedData_eq (k v : String) : (truncObj k v ++ "\"\x7d").data =
    '\x7b' :: '"' :: (k.data ++ '"' :: ':' :: ' ' :: '"' :: (v.data ++ ['"', '\x7d'])) := by
  rw [str_data_append, truncObj_data]
  simp

theorem closed_no_comma (k v : String) (hk : k.data.all plainChar = true)
    (hv : v.data.all plainChar = true) :
    ∀ c ∈ (truncObj k v ++ "\"\x7d").data, c ≠ ',' := by
  intro c hc
  rw [closedData_eq] at hc
  simp only [List.mem_cons, List.mem_append, List.not_mem_nil, or_false] at hc
  rcases hc with rfl | rfl | hk' | rfl | rfl | rfl | rfl | hv' | rfl | rfl
  · decide
  · decide
  · exact plain_ne_comma (List.all_eq_true.mp hk c hk')
  · decide
  · decide
  · decide
  · decide
  · exact plain_ne_comma (List.all_eq_true.mp hv c hv')
  · decide
  · decide

theorem clean_closed (k v : String) (hk : k.data.all plainChar = true)
    (hv : v.data.all plainChar = true) :
    clean_json_response (truncObj k v ++ "\"\x7d") = truncObj k v ++ "\"\x7d" := by
  have hTd := closedData_eq k v
  have hshape : truncObj k v ++ "\"\x7d" =
      ⟨'\x7b' :: (('"' :: (k.data ++ '"' :: ':' :: ' ' :: '"' :: (v.data ++ ['"']))) ++ ['\x7d'])⟩ := by
    apply String.ext
    rw [hTd]
    simp
  have h1 : pyStrip (truncObj k v ++ "\"\x7d") = truncObj k v ++ "\"\x7d" := by
    rw [hshape]
    exact pyStrip_of_ends _ _ _ (by decide) (by decide)
  have h2 : strStartsWith (truncObj k v ++ "\"\x7d") "\x7b" = true := by
    unfold strStartsWith
    rw [hTd]
    simp [List.isPrefixOf]
  have hrev : (truncObj k v ++ "\"\x7d").data.reverse =
      '\x7d' :: (('"' :: (k.data ++ '"' :: ':' :: ' ' :: '"' :: (v.data ++ ['"']))).reverse ++ ['\x7b']) := by
    rw [hshape]
    simp
  have h3 : revMatchQColonQ (truncObj k v ++ "\"\x7d").data.reverse = false := by
    rw [hrev]
    exact revMatch_false_of_head (by decide) _
  have h4 : strEndsWith (truncObj k v ++ "\"\x7d") "\"" = false := by
    unfold strEndsWith
    rw [hrev]
    exact isPrefixOf_singleton_cons_ne (by decide) _
  have h5 : scanText (truncObj k v ++ "\"\x7d").data =
      ⟨0, 0, false, false, ((2 + k.data.length + 4 + v.data.length + 1 : Nat) : Int), -1⟩ := by
    rw [hTd]
    exact scanText_closed k v hk hv
  have hlen : (truncObj k v ++ "\"\x7d").data.length =
      k.data.length + v.data.length + 8 := by
    rw [hTd]
    simp only [List.length_cons, List.length_append, List.length_nil]
    omega
  have hnc := closed_no_comma k v hk hv
  have hfnv : noFNVMatch (truncObj k v ++ "\"\x7d").data = true := by
    rw [hTd]
    exact noFNVMatch_closed hk hv
  have huv : noUVMatch (truncObj k v ++ "\"\x7d").data = true := by
    rw [hTd]
    exact noUVMatch_closed hk hv
  unfold clean_json_response
  simp only [h1, h2, h3, h4, h5, Bool.not_true, Bool.not_false, reduceIte, reduceCtorEq,
    Bool.false_eq_true, false_and, if_false]
  rw [if_pos (show ((2 + k.data.length + 4 + v.data.length + 1 : Nat) : Int) > 0 from by omega)]
  rw [show ((2 + k.data.length + 4 + v.data.length + 1 : Nat) : Int).toNat + 1 =
    2 + k.data.length + 4 + v.data.length + 1 + 1 from by omega]
  have htake : pyTake (truncObj k v ++ "\"\x7d")
      (2 + k.data.length + 4 + v.data.length + 1 + 1) = truncObj k v ++ "\"\x7d" :=
    pyTake_full (by rw [hlen]; omega)
  rw [htake]
  rw [show subDupComma (truncObj k v ++ "\"\x7d") = truncObj k v ++ "\"\x7d" from by
    unfold subDupComma
    rw [subDupCommaAux_id hnc]]
  rw [show subCommaBrace (truncObj k v ++ "\"\x7d") = truncObj k v ++ "\"\x7d" from by
    unfold subCommaBrace
    rw [subCommaBraceAux_id hnc]]
  rw [show subCommaBracket (truncObj k v ++ "\"\x7d") = truncObj k v ++ "\"\x7d" from by
    unfold subCommaBracket
    rw [subCommaBracketAux_id hnc]]
  rw [show subFieldNoValue (truncObj k v ++ "\"\x7d") = truncObj k v ++ "\"\x7d" from by
    unfold subFieldNoValue
    rw [subFieldNoValueAux_id hfnv]]
  unfold subUnterminatedValue
  rw [subUnterminatedValueAux_id huv]

theorem drop_append_cons {α : Type} (l r : List α) (n : Nat) :
    (l ++ r).drop (l.length + n) = r.drop n := by
  induction l with
  | nil => simp
  | cons c t ih =>
    simp only [List.cons_append, List.length_cons, Nat.succ_add, List.drop_succ_cons]
    exact ih

theorem drop_add {α : Type} (l : List α) (m n : Nat) :
    l.drop (m + n) = (l.drop m).drop n := by
  induction m generalizing l with
  | zero =>
    rw [Nat.zero_add]
    rfl
  | succ mm ih =>
    cases l with
    | nil => simp
    | cons c t =>
      rw [show mm + 1 + n = mm + n + 1 from by omega, List.drop_succ_cons,
        List.drop_succ_cons, ih]

theorem jsonP_closed (k v : String) (hk : k.data.all plainChar = true)
    (hv : v.data.all plainChar = true) (f : Nat) :
    jsonP ('\x7b' :: '"' :: (k.data ++ '"' :: ':' :: ' ' :: '"' :: (v.data ++ ['"', '\x7d'])))
      (f + 1 + 1 + 1 + 1) (.value 0) =
      .ok (Json.obj [(k, Json.str v)], k.data.length + v.data.length + 8) := by
  set cs : List Char :=
    '\x7b' :: '"' :: (k.data ++ '"' :: ':' :: ' ' :: '"' :: (v.data ++ ['"', '\x7d'])) with hcs
  have hlen : cs.length = k.data.length + v.data.length + 8 := by
    rw [hcs]
    simp only [List.length_cons, List.length_append, List.length_nil]
    omega
  have hd2 : cs.drop 2 = k.data ++ '"' :: (':' :: ' ' :: '"' :: (v.data ++ ['"', '\x7d'])) := by
    rw [hcs]
    rfl
  have hd3 : cs.drop (k.data.length + 3) = ':' :: ' ' :: '"' :: (v.data ++ ['"', '\x7d']) := by
    rw [hcs]
    show (k.data ++ '"' :: ':' :: ' ' :: '"' :: (v.data ++ ['"', '\x7d'])).drop (k.data.length + 1) = _
    rw [drop_append_cons]
    rfl
  have hd4 : cs.drop (k.data.length + 4) = ' ' :: '"' :: (v.data ++ ['"', '\x7d']) := by
    rw [hcs]
    show (k.data ++ '"' :: ':' :: ' ' :: '"' :: (v.data ++ ['"', '\x7d'])).drop (k.data.length + 2) = _
    rw [drop_append_cons]
    rfl
  have hd5 : cs.drop (k.data.length + 5) = '"' :: (v.data ++ ['"', '\x7d']) := by
    rw [hcs]
    show (k.data ++ '"' :: ':' :: ' ' :: '"' :: (v.data ++ ['"', '\x7d'])).drop (k.data.length + 3) = _
    rw [drop_append_cons]
    rfl
  have hd6 : cs.drop (k.data.length + 6) = v.data ++ '"' :: ['\x7d'] := by
    rw [hcs]
    show (k.data ++ '"' :: ':' :: ' ' :: '"' :: (v.data ++ ['"', '\x7d'])).drop (k.data.length + 4) = _
    rw [drop_append_cons]
    rfl
  have hdE : cs.drop (k.data.length + 6 + (v.data.length + 1)) = ['\x7d'] := by
    rw [drop_add, hd6, drop_append_cons]
    rfl
  have hdE' : cs.drop (k.data.length + 5 + 1 + v.data.length + 1) = ['\x7d'] := by
    rw [show k.data.length + 5 + 1 + v.data.length + 1 =
      k.data.length + 6 + (v.data.length + 1) from by omega]
    exact hdE
  have hc0 : cs[0]? = some '\x7b' := by
    rw [hcs]
    rfl
  have hc1 : cs[0 + 1]? = some '"' := by
    rw [hcs, List.getElem?_cons_succ, List.getElem?_cons_zero]
  have hcColon : cs[0 + 1 + 1 + k.data.length + 1]? = some ':' := by
    rw [show 0 + 1 + 1 + k.data.length + 1 = k.data.length + 3 from by omega,
      ← List.head?_drop, hd3]
    rfl
  have hc5 : cs[k.data.length + 5]? = some '"' := by
    rw [← List.head?_drop, hd5]
    rfl
  have hcEnd : cs[k.data.length + 5 + 1 + v.data.length + 1]? = some '\x7d' := by
    rw [← List.head?_drop, hdE']
    rfl
  have hscanK : jsonScanString cs (0 + 1) (0 + 1 + 1) [] (cs.length + 1) =
      .ok (k, 0 + 1 + 1 + k.data.length + 1) := by
    rw [jsonScanString_plain cs (0 + 1) k.data (':' :: ' ' :: '"' :: (v.data ++ ['"', '\x7d']))
      hk [] (0 + 1 + 1) (by rw [show (0 + 1 + 1 : Nat) = 2 from by omega]; exact hd2)
      (cs.length + 1) (by rw [hlen]; omega)]
    simp only [List.reverse_nil, List.nil_append, str_mk_data]
  have hswColon : jsonSkipWs cs (0 + 1 + 1 + k.data.length + 1 + 1) = k.data.length + 5 := by
    unfold jsonSkipWs
    rw [show cs.drop (0 + 1 + 1 + k.data.length + 1 + 1) =
        ' ' :: '"' :: (v.data ++ ['"', '\x7d']) from by
      rw [show 0 + 1 + 1 + k.data.length + 1 + 1 = k.data.length + 4 from by omega]
      exact hd4]
    rw [show (' ' :: '"' :: (v.data ++ ['"', '\x7d'])).takeWhile jsonIsWs = [' '] from by
      rw [List.takeWhile_cons, if_pos (show jsonIsWs ' ' = true from by decide),
        List.takeWhile_cons, if_neg (show ¬jsonIsWs '"' = true from by decide)]]
    simp only [List.length_cons, List.length_nil]
    omega
  have hscanV : jsonScanString cs (k.data.length + 5) (k.data.length + 5 + 1) [] (cs.length + 1) =
      .ok (v, k.data.length + 5 + 1 + v.data.length + 1) := by
    rw [jsonScanString_plain cs (k.data.length + 5) v.data ['\x7d'] hv []
      (k.data.length + 5 + 1)
      (by rw [show k.data.length + 5 + 1 = k.data.length + 6 from by omega]; exact hd6)
      (cs.length + 1) (by rw [hlen]; omega)]
    simp only [List.reverse_nil, List.nil_append, str_mk_data]
  have hswEnd : jsonSkipWs cs (k.data.length + 5 + 1 + v.data.length + 1) =
      k.data.length + 5 + 1 + v.data.length + 1 :=
    jsonSkipWs_head_not_ws hdE' (by decide)
  simp only [jsonP, hc0, hc1, hscanK, hcColon, hswColon, hc5, hscanV, hswEnd, hcEnd,
    Except.map, reduceIte, List.reverse_cons, List.reverse_nil, List.nil_append]
  rw [show k.data.length + 5 + 1 + v.data.length + 1 + 1 =
    k.data.length + v.data.length + 8 from by omega]
  rw [if_neg (show ¬('\x7b' = '"') from by decide)]

theorem json_loads_closed (k v : String) (hk : k.data.all plainChar = true)
    (hv : v.data.all plainChar = true) :
    json_loads (truncObj k v ++ "\"\x7d") = .ok (Json.obj [(k, Json.str v)]) := by
  unfold json_loads
  simp only [closedData_eq]
  have hsw0 : jsonSkipWs
      ('\x7b' :: '"' :: (k.data ++ '"' :: ':' :: ' ' :: '"' :: (v.data ++ ['"', '\x7d']))) 0 = 0 :=
    jsonSkipWs_head_not_ws rfl (by decide)
  have hlenL : ('\x7b' :: '"' ::
      (k.data ++ '"' :: ':' :: ' ' :: '"' :: (v.data ++ ['"', '\x7d']))).length =
      k.data.length + v.data.length + 8 := by
    simp only [List.length_cons, List.length_append, List.length_nil]
    omega
  rw [hsw0]
  rw [show 2 * ('\x7b' :: '"' ::
      (k.data ++ '"' :: ':' :: ' ' :: '"' :: (v.data ++ ['"', '\x7d']))).length + 2 =
    2 * (k.data.length + v.data.length) + 14 + 1 + 1 + 1 + 1 from by rw [hlenL]; omega]
  rw [jsonP_closed k v hk hv (2 * (k.data.length + v.data.length) + 14)]
  have hdN : ('\x7b' :: '"' ::
      (k.data ++ '"' :: ':' :: ' ' :: '"' :: (v.data ++ ['"', '\x7d']))).drop
      (k.data.length + v.data.length + 8) = [] := by
    rw [← hlenL]
    exact List.drop_length _
  have hswN : jsonSkipWs
      ('\x7b' :: '"' :: (k.data ++ '"' :: ':' :: ' ' :: '"' :: (v.data ++ ['"', '\x7d'])))
      (k.data.length + v.data.length + 8) = k.data.length + v.data.length + 8 :=
    jsonSkipWs_nil hdN
  simp only [hswN, hlenL]
  rw [if_neg (lt_irrefl _)]


/-- C2: for every input path containing a parent-directory segment or in
absolute form, the resolver returns the traversal/absolute-input violation —
uniformly in the filesystem, so no resolution, existence check or read is
attempted on such inputs. -/
theorem resolve_failfast_on_dotdot_or_absolute (fs : PyFS) (root file_path : String)
    (h : (pathParts file_path).contains ".." = true ∨ isAbsolutePath file_path = true) :
    resolve_and_validate_path fs root file_path = .err travErrorMsg := by
  rcases h with h | h <;>
    simp only [resolve_and_validate_path, h, Bool.true_or, Bool.or_true] <;> rfl

/-- C2 witness: `../../etc/passwd` is rejected with the traversal message on
the empty filesystem. -/
theorem resolve_failfast_on_dotdot_or_absolute_witness :
    (pathParts "../../etc/passwd").contains ".." = true ∧
      resolve_and_validate_path trivialFS "/sandbox" "../../etc/passwd" = .err travErrorMsg :=
  ⟨by decide, resolve_failfast_on_dotdot_or_absolute trivialFS "/sandbox" "../../etc/passwd"
      (Or.inl (by decide))⟩

/-- C1 counterexample: `link` passes the fail-fast checks and canonicalizes
through a symlink to `/sandbox-evil/secret`, which is not located within the
root `/sandbox`; yet the resolver returns it as a success instead of a
violation, because the containment re-check is a plain string-prefix test
and the sibling directory's name extends the root's string. -/
theorem resolve_accepts_prefix_sibling_escape :
    (pathParts "link").contains ".." = false ∧ isAbsolutePath "link" = false ∧
    symlinkEscapeFS.resolve (joinPath "/sandbox" "link") = "/sandbox-evil/secret" ∧
    located_within_root "/sandbox" "/sandbox-evil/secret" = false ∧
    resolve_and_validate_path symlinkEscapeFS "/sandbox" "link" = .ok "/sandbox-evil/secret" :=
  ⟨by decide, by decide, by decide, by decide, by decide⟩

/-- C1 amended: past the fail-fast checks the resolver joins the input to
the root, canonicalizes it, and returns the outside-root violation whenever
the canonical result does not have the canonical root as a string prefix —
for every `isFile`/`isDir`/`listDir` behaviour alike, so the violating path
is never dereferenced.  (Containment is only this string-prefix test: a
sibling directory whose name extends the root's name passes it.) -/
theorem resolve_rejects_nonprefix_canonical_result
    (res : String → String) (isFileF isDirF : String → Bool)
    (listDirF : String → List String) (root file_path : String)
    (h1 : (pathParts file_path).contains ".." = false)
    (h2 : isAbsolutePath file_path = false)
    (h3 : strStartsWith (res (joinPath root file_path)) root = false) :
    resolve_and_validate_path ⟨res, isFileF, isDirF, listDirF⟩ root file_path =
      .err outsideRootErrorMsg := by
  simp only [resolve_and_validate_path, h1, h2, h3]
  rfl

/-- C1 amended, witness: a symlink escaping to `/etc/secret` is rejected
with the outside-root violation even though the filesystem reports every
path as an existing file. -/
theorem resolve_rejects_nonprefix_canonical_result_witness :
    ((pathParts "link").contains ".." = false ∧ isAbsolutePath "link" = false ∧
      strStartsWith ((fun p => if p == "/sandbox/link" then "/etc/secret" else p)
        (joinPath "/sandbox" "link")) "/sandbox" = false) ∧
    resolve_and_validate_path
      ⟨fun p => if p == "/sandbox/link" then "/etc/secret" else p,
        fun _ => true, fun _ => true, fun _ => ["x"]⟩ "/sandbox" "link" =
      .err outsideRootErrorMsg :=
  ⟨⟨by decide, by decide, by decide⟩,
    resolve_rejects_nonprefix_canonical_result _ _ _ _ "/sandbox" "link"
      (by decide) (by decide) (by decide)⟩

/-- C9 counterexample: for target `a/b/c` whose parent `a/b` does not
exist, the resolver reports only the missing directory and walks no
further: the root `/sandbox` is an existing ancestor with contents, none of
which appear in the observation. -/
theorem resolve_missing_parent_reports_no_ancestor :
    resolve_and_validate_path missingParentFS "/sandbox" "a/b/c" =
      .err "Error: Cannot access path 'a/b/c' because its directory 'a/b' does not exist." ∧
    missingParentFS.isDir "/sandbox" = true ∧
    missingParentFS.listDir "/sandbox" = ["exists.txt"] :=
  ⟨by decide, by decide, by decide⟩

/-- C9 amended: when the validated target does not exist but its immediate
parent directory does and lies under the root (`relative_to` succeeds), the
resolver reports that parent's entries in the observation; it checks only
the immediate parent, never a farther ancestor.  (An existing parent
outside the root — reachable through the string-prefix gap of C1 — instead
makes line 122's `relative_to` raise, caught into the could-not-be-read
message with no entries.) -/
theorem resolve_reports_parent_contents_when_parent_exists
    (fs : PyFS) (root file_path relative_parent : String)
    (h1 : (pathParts file_path).contains ".." = false)
    (h2 : isAbsolutePath file_path = false)
    (h3 : strStartsWith (fs.resolve (joinPath root file_path)) root = true)
    (h4 : fs.isFile (fs.resolve (joinPath root file_path)) = false)
    (h5 : fs.isDir (fs.resolve (joinPath root file_path)) = false)
    (h6 : fs.isDir (parentPath (fs.resolve (joinPath root file_path))) = true)
    (h7 : relativeTo (parentPath (fs.resolve (joinPath root file_path))) root =
      some relative_parent) :
    resolve_and_validate_path fs root file_path =
      .err (notFoundErrorMsg file_path
        (if relative_parent != "." then relative_parent else "the root directory")
        (fs.listDir (parentPath (fs.resolve (joinPath root file_path))))) := by
  simp only [resolve_and_validate_path, h1, h2, h3, h4, h5, h6, h7]
  rfl

/-- C9 amended, witness: `missing.txt` does not exist but its parent is the
root itself (`relative_to` gives `.`), so the observation lists the root's
entries. -/
theorem resolve_reports_parent_contents_when_parent_exists_witness :
    (missingParentFS.isDir
        (parentPath (missingParentFS.resolve (joinPath "/sandbox" "missing.txt"))) = true ∧
      relativeTo (parentPath (missingParentFS.resolve (joinPath "/sandbox" "missing.txt")))
        "/sandbox" = some ".") ∧
    resolve_and_validate_path missingParentFS "/sandbox" "missing.txt" =
      .err (notFoundErrorMsg "missing.txt" "the root directory" ["exists.txt"]) := by
  refine ⟨⟨by decide, by decide⟩, ?_⟩
  exact resolve_reports_parent_contents_when_parent_exists missingParentFS "/sandbox"
    "missing.txt" "." (by decide) (by decide) (by decide) (by decide) (by decide)
    (by decide) (by decide)

/-- C3 counterexample: `read_file_content` is a registered tool, yet a call
missing its required `file_path` keyword makes the dispatcher raise a
`TypeError` that escapes (no textual error observation is produced). -/
theorem dispatch_raises_on_missing_argument :
    tool_param_names "read_file_content" = some ["file_path"] ∧
    dispatch_tool (fun _ _ => "") "read_file_content" [] =
      .error (typeErrorMsg "read_file_content") :=
  ⟨by decide, rfl⟩

/-- C3 amended: an unregistered tool name yields an observation naming the
unknown tool and the dispatcher does not throw for it; malformed arguments,
however, raise an uncaught `TypeError` (previous theorem). -/
theorem dispatch_reports_unknown_tool
    (run_tool : String → List (String × String) → String)
    (fn_name : String) (fn_args : List (String × String))
    (h : tool_param_names fn_name = none) :
    dispatch_tool run_tool fn_name fn_args = .ok ("Tool " ++ fn_name ++ " not found.") := by
  simp [dispatch_tool, h]

/-- C3 amended, witness: a call to the unregistered `frobnicate` produces
the not-found observation. -/
theorem dispatch_reports_unknown_tool_witness :
    tool_param_names "frobnicate" = none ∧
    dispatch_tool (fun _ _ => "") "frobnicate" [("x", "1")] =
      .ok "Tool frobnicate not found." :=
  ⟨by decide, dispatch_reports_unknown_tool _ "frobnicate" _ (by decide)⟩

/-- Joining a one-element list of strings is that string. -/
theorem join_singleton (s : String) : String.join [s] = s := by
  cases s with
  | mk data => rfl

/-- Dispatch does not raise exactly when `dispatch_ok` holds: it returns
some observation. -/
theorem dispatch_tool_ok_of_dispatch_ok
    (run_tool : String → List (String × String) → String)
    (fn : ToolCall) (h : dispatch_ok fn = true) :
    ∃ result, dispatch_tool run_tool fn.name fn.args = .ok result := by
  unfold dispatch_ok at h
  unfold dispatch_tool
  cases htp : tool_param_names fn.name with
  | none => exact ⟨_, rfl⟩
  | some params =>
    rw [htp] at h
    exact ⟨run_tool fn.name fn.args,
      by simp [show kwargs_bind_ok params (fn.args.map Prod.fst) = true from h]⟩

/-- C4 amended: for every max-turn budget and every model each of whose
replies carries a tool call that dispatches without raising, the loop
performs exactly `max_turns` iterations — never fewer, never more — and
then returns the fixed incomplete-investigation sentinel. -/
theorem agent_loop_runs_exactly_max_turns
    (model : List Content → ModelResponse)
    (run_tool : String → List (String × String) → String)
    (initial_prompt : String)
    (H : ∀ hist, reply_dispatchable_tool_call (model hist))
    (max_turns : Nat) :
    agent_run model run_tool initial_prompt max_turns = (.ok maxTurnsSentinel, max_turns) := by
  have key : ∀ n hist, agent_loop model run_tool n hist = (.ok maxTurnsSentinel, n) := by
    intro n
    induction n with
    | zero => intro hist; rfl
    | succ m ih =>
      intro hist
      obtain ⟨c, hc, fn, hfn, hok⟩ := H hist
      obtain ⟨result, hd⟩ := dispatch_tool_ok_of_dispatch_ok run_tool fn hok
      simp only [agent_loop, hc, hfn, hd, ih]
  exact key max_turns _

/-- C4 amended, witness: a model that always issues a well-formed
`read_file_content` call drives the loop through exactly 2 of 2 turns and
ends with the sentinel. -/
theorem agent_loop_runs_exactly_max_turns_witness :
    agent_run toolCallModel (fun _ _ => "observation") "prompt" 2 = (.ok maxTurnsSentinel, 2) :=
  agent_loop_runs_exactly_max_turns toolCallModel (fun _ _ => "observation") "prompt"
    (fun _ => ⟨_, rfl, ⟨"read_file_content", [("file_path", "a.txt")]⟩, rfl, rfl⟩) 2

/-- C4 counterexample: a model that returns a tool call on every turn —
always `read_file_content`, with its required argument missing — does not
drive the loop for `max_turns = 1` to the sentinel: the uncaught `TypeError`
aborts the loop on the first turn. -/
theorem agent_loop_crashes_on_malformed_tool_call :
    ((malformedCallModel []).candidates.headD ⟨⟨"", []⟩⟩).content.parts.findSome?
        (fun p => p.function_call) = some ⟨"read_file_content", []⟩ ∧
    agent_run malformedCallModel (fun _ _ => "") "prompt" 1 =
      (.error (typeErrorMsg "read_file_content"), 1) ∧
    (.error (typeErrorMsg "read_file_content"), 1) ≠
      ((.ok maxTurnsSentinel, 1) : Except String String × Nat) :=
  ⟨rfl, rfl, by decide⟩

/-- C5 counterexample: a reply with an empty candidate list — the blocked /
empty model-backend failure as the agent loop observes it — is not turned
into a failure report: `response.candidates[0]` raises an `IndexError` that
escapes the loop. -/
theorem agent_loop_raises_on_empty_candidates :
    agent_run emptyCandidatesModel (fun _ _ => "") "prompt" 1 = (.error indexErrorMsg, 1) :=
  rfl

/-- C5 amended: the single-shot reviewer does handle the failure: for every
response with an empty candidate list it returns a document whose `error`
field carries the blocked-content reason when one is present and a fixed
no-content message otherwise — no exception. -/
theorem reviewer_returns_error_document_on_empty_candidates
    (response : ReviewResponse) (h : response.candidates = []) :
    (process_review_response response).error =
      some (match response.prompt_feedback with
            | some fb =>
              match fb.block_reason with
              | some reason => blockedMsg reason fb.safety_ratings
              | none => noContentMsg
            | none => noContentMsg) := by
  simp only [process_review_response, h]
  rfl

/-- C5 amended, witness: a blocked reply with reason `SAFETY` and no
candidates yields the blocked-content error document. -/
theorem reviewer_returns_error_document_on_empty_candidates_witness :
    ((⟨[], some ⟨some "SAFETY", none⟩⟩ : ReviewResponse).candidates = []) ∧
    (process_review_response ⟨[], some ⟨some "SAFETY", none⟩⟩).error =
      some "Batch content generation blocked. Reason: SAFETY." :=
  ⟨rfl, reviewer_returns_error_document_on_empty_candidates ⟨[], some ⟨some "SAFETY", none⟩⟩ rfl⟩

/-- C6 counterexample: the truncated JSON `{"a": "{` ends inside an
unterminated string, but the repaired output `{"a": "{"}}` is not valid
JSON (the brace inside the string literal is double-counted by the
character-count closing step), and the repair is not idempotent: repairing
its own output changes it again. -/
theorem clean_json_not_valid_not_idempotent :
    (scanText jsonTruncBrace.data).in_string = true ∧
    clean_json_response jsonTruncBrace = "\x7b\"a\": \"\x7b\"\x7d\x7d" ∧
    (json_loads (clean_json_response jsonTruncBrace)).isOk = false ∧
    clean_json_response (clean_json_response jsonTruncBrace) ≠ clean_json_response jsonTruncBrace :=
  ⟨by decide, by decide, by decide, by decide⟩

/-- C6 amended: the repair guarantees neither validity nor idempotence in
general; but for every simple truncation `{"k": "v` — one object, one
field, the text ending inside the open string, key and open string made of
plain printable characters (no quotes, backslashes, braces, brackets,
commas, colons or whitespace) and the open string non-empty — the scan
ends inside the open string, the repair closes the string and the brace,
the repaired output parses as the one-pair object, and the repair is a
fixpoint on its own output. -/
theorem clean_json_closes_simple_truncation (k v : String)
    (hk : k.data.all plainChar = true) (hv : v.data.all plainChar = true)
    (hvne : v ≠ "") :
    (scanText (truncObj k v).data).in_string = true ∧
    clean_json_response (truncObj k v) = truncObj k v ++ "\"\x7d" ∧
    json_loads (clean_json_response (truncObj k v)) = .ok (Json.obj [(k, Json.str v)]) ∧
    clean_json_response (clean_json_response (truncObj k v)) =
      clean_json_response (truncObj k v) := by
  have h1 := clean_truncObj k v hk hv hvne
  refine ⟨?_, h1, ?_, ?_⟩
  · rw [scanText_truncObj k v hk hv]
  · rw [h1]
    exact json_loads_closed k v hk hv
  · rw [h1]
    exact clean_closed k v hk hv

/-- Witness for C6 amended at the concrete simple truncation
`{"summary": "ok`: the hypotheses hold by evaluation and the repaired
output parses as the object with the one pair `summary -> ok`. -/
theorem clean_json_closes_simple_truncation_witness :
    ("summary".data.all plainChar = true ∧ "ok".data.all plainChar = true ∧ "ok" ≠ "") ∧
    clean_json_response (truncObj "summary" "ok") = truncObj "summary" "ok" ++ "\"\x7d" ∧
    json_loads (clean_json_response (truncObj "summary" "ok")) =
      .ok (Json.obj [("summary", Json.str "ok")]) :=
  ⟨⟨by decide, by decide, by decide⟩,
   (clean_json_closes_simple_truncation "summary" "ok" (by decide) (by decide)
     (by decide)).2.1,
   (clean_json_closes_simple_truncation "summary" "ok" (by decide) (by decide)
     (by decide)).2.2.1⟩

set_option maxHeartbeats 4000000 in
/-- C7 counterexample: the raw texts `xy` and `yx` both fail to parse, also
after repair, and produce *identical* stub documents: the stub preserves
only the parse-error diagnostics, not the original raw text, which cannot
be recovered from the returned document. -/
theorem fallback_stub_loses_raw_text :
    respOfText "xy" ≠ respOfText "yx" ∧
    (json_loads "xy").isOk = false ∧
    (json_loads (clean_json_response "xy")).isOk = false ∧
    (json_loads "yx").isOk = false ∧
    (json_loads (clean_json_response "yx")).isOk = false ∧
    process_review_response (respOfText "xy") = process_review_response (respOfText "yx") :=
  ⟨by decide, by decide, by decide, by decide, by decide, rfl⟩

/-- C7 amended: for every raw text that fails to parse directly and still
fails after repair, the reviewer returns (never raises) the fallback stub,
whose `error` field carries the parse-failure diagnostic; the stub contains
the two error messages but not the raw text itself. -/
theorem fallback_stub_on_double_parse_failure
    (t : String) (j e : JsonErr)
    (h0 : pyStrip t ≠ "")
    (h1 : json_loads t = .error j)
    (h2 : json_loads (clean_json_response t) = .error e) :
    process_review_response (respOfText t) = fallbackStub t (clean_json_response t) j e ∧
    (fallbackStub t (clean_json_response t) j e).error =
      some ("Failed to parse response: " ++ jsonErrString (clean_json_response t) e) := by
  constructor
  · have htne : t ≠ "" := fun hh => h0 (by rw [hh]; rfl)
    have ht : (t != "") = true := bne_iff_ne.mpr htne
    have hproc : process_review_response (respOfText t) = parse_review_text t := by
      unfold process_review_response respOfText
      simp [ht, htne, h0, join_singleton]
    rw [hproc]
    simp only [parse_review_text, h1, h2]
  · rfl

/-- C7 amended, witness: the unparseable raw text `zz` yields the fallback
stub carrying the two diagnostics. -/
theorem fallback_stub_on_double_parse_failure_witness :
    (pyStrip "zz" ≠ "" ∧ json_loads "zz" = .error ⟨.expectingValue, 0⟩ ∧
      json_loads (clean_json_response "zz") = .error ⟨.expectingPropertyName, 1⟩) ∧
    process_review_response (respOfText "zz") =
      fallbackStub "zz" (clean_json_response "zz") ⟨.expectingValue, 0⟩
        ⟨.expectingPropertyName, 1⟩ := by
  refine ⟨⟨by decide, rfl, rfl⟩, ?_⟩
  exact (fallback_stub_on_double_parse_failure "zz" ⟨.expectingValue, 0⟩
    ⟨.expectingPropertyName, 1⟩ (by decide) rfl rfl).1

/-- C8: the cache expiry compares against the working directory's mtime,
not the wall clock: an entry written at mtime 0, looked up at wall-clock
time 200000 — aged far beyond the 86400-second window — is still returned
as a hit and its file is not removed, because the working directory's mtime
(50000) is less than 86400 ahead of the entry's. -/
theorem load_from_cache_returns_wall_clock_expired_entry :
    CACHE_EXPIRY_SECONDS < wall_clock_age 200000 staleCacheFile ∧
    load_from_cache staleCacheFile = (some ⟨"cached summary", none⟩, false) :=
  ⟨by decide, rfl⟩

/-- C10: the cache key hashes the bare concatenation of the UTF-8 bytes of
the present fields, with no separators: the distinct review inputs
(code `ab`, language `c`) and (code `a`, language `bc`) feed identical byte
streams to the hasher and therefore share one fingerprint, for every model
name and every hash function. -/
theorem cache_key_collision_ab_c (sha256 : List Nat → String) (model_name : String) :
    ("ab", "c") ≠ ("a", "bc") ∧
    get_cache_key sha256 "ab" "c" model_name none none none =
      get_cache_key sha256 "a" "bc" model_name none none none := by
  refine ⟨by decide, ?_⟩
  show sha256 _ = sha256 _
  apply congrArg
  simp only [hasher_input, optBytes, List.append_nil]
  have hcore : utf8Bytes "ab" ++ utf8Bytes "c" = utf8Bytes "a" ++ utf8Bytes "bc" := by decide
  calc utf8Bytes "ab" ++ (utf8Bytes "c" ++ utf8Bytes model_name)
      = (utf8Bytes "ab" ++ utf8Bytes "c") ++ utf8Bytes model_name :=
        (List.append_assoc _ _ _).symm
    _ = (utf8Bytes "a" ++ utf8Bytes "bc") ++ utf8Bytes model_name := by rw [hcore]
    _ = utf8Bytes "a" ++ (utf8Bytes "bc" ++ utf8Bytes model_name) := List.append_assoc _ _ _

end Ultron
